import Mathlib

/- Shallow embedding of the DaanaRx backend inventory core
   (src/services/unitService.ts and src/services/transactionService.ts)
   over an explicit storage state, together with proofs about it.

   Modelling conventions:
   - supabase tables are lists of rows; quantities are Int (JS numbers used
     as integers by the core); dates are Nat values whose order agrees with
     the chronological order of the ISO date strings the code compares;
   - the order-by of a query is a stable sort (List.insertionSort);
   - each storage write that the service code checks for failure takes an
     injected `Option String` (the storage error message, none = success);
   - a service call returns its thrown-or-returned result together with the
     storage state after the call. -/

namespace DaanaRx

/-- Transaction type column of the transactions table. -/
inductive TxType where
  | check_in : TxType
  | check_out : TxType
  | adjust : TxType
deriving DecidableEq, Repr

/-- Row of the drugs table (the fields the core services read). -/
structure DbDrug where
  drug_id : String
  medication_name : String
  generic_name : String
  strength : Int
  strength_unit : String
  ndc_id : String
  form : String
deriving DecidableEq, Repr

/-- Row of the lots table (the fields the core services read). -/
structure DbLot where
  lot_id : String
  source : String
  note : Option String
  location_id : String
  clinic_id : String
  max_capacity : Option Int
deriving DecidableEq, Repr

/-- Row of the users table (the fields the unit search reads). -/
structure DbUser where
  user_id : String
  username : String
  email : String
deriving DecidableEq, Repr

/-- Row of the units table. -/
structure DbUnit where
  unit_id : String
  total_quantity : Int
  available_quantity : Int
  expiry_date : Nat
  date_created : Nat
  lot_id : String
  drug_id : String
  clinic_id : String
  user_id : String
  patient_reference_id : Option String
  optional_notes : Option String
  manufacturer_lot_number : Option String
  qr_code : Option String
deriving DecidableEq, Repr

/-- Row of the transactions table (ids are allocation order; the timestamp
column is not modelled, no claim mentions it). -/
structure DbTransaction where
  transaction_id : Nat
  type : TxType
  quantity : Int
  unit_id : String
  patient_name : Option String
  patient_reference_id : Option String
  user_id : String
  notes : Option String
  clinic_id : String
deriving DecidableEq, Repr

/-- The storage collaborator state: the tables the core touches. -/
structure DbState where
  units : List DbUnit
  transactions : List DbTransaction
  drugs : List DbDrug
  lots : List DbLot
  users : List DbUser
deriving DecidableEq, Repr

instance {ε α : Type} [DecidableEq ε] [DecidableEq α] : DecidableEq (Except ε α) :=
  fun a b =>
    match a, b with
    | .error e1, .error e2 =>
      if h : e1 = e2 then isTrue (by rw [h]) else
        isFalse (by intro hc; injection hc with h2; exact h h2)
    | .error _, .ok _ => isFalse (by intro hc; injection hc)
    | .ok _, .error _ => isFalse (by intro hc; injection hc)
    | .ok a1, .ok a2 =>
      if h : a1 = a2 then isTrue (by rw [h]) else
        isFalse (by intro hc; injection hc with h2; exact h h2)

/-- JS truthiness of an optional string (undefined and the empty string are falsy). -/
def optStrFalsy : Option String → Bool
  | none => true
  | some s => s.isEmpty

/-- JS truthiness of an optional number (undefined and 0 are falsy). -/
def optIntFalsy : Option Int → Bool
  | none => true
  | some n => n == 0

/-- Row predicate for a unit addressed by unit id within a tenant
(.eq(unit_id, x).eq(clinic_id, c)). -/
def unitRowMatches (x c : String) (u : DbUnit) : Bool :=
  u.unit_id == x && u.clinic_id == c

/-- Read of a unit's available quantity
(.select(available_quantity).eq(unit_id).eq(clinic_id).single()). -/
def readQty (l : List DbUnit) (x c : String) : Option Int :=
  (l.find? (unitRowMatches x c)).map (fun u => u.available_quantity)

/-- Write of a unit's available quantity
(.update(available_quantity).eq(unit_id).eq(clinic_id)). -/
def updateQty (l : List DbUnit) (x c : String) (q : Int) : List DbUnit :=
  l.map (fun u => if unitRowMatches x c u then { u with available_quantity := q } else u)

/-- Result-ledger entry recorded for each unit the FEFO walk consumed. -/
structure UsedUnit where
  unitId : String
  quantityTaken : Int
  expiryDate : Nat
  medicationName : String
deriving DecidableEq, Repr

/-- One FEFO compensation step: re-read the used unit's current available
quantity and add back the amount this allocation took. -/
def rollbackStep (c : String) (acc : List DbUnit) (uu : UsedUnit) : List DbUnit :=
  match readQty acc uu.unitId c with
  | none => acc
  | some q => updateQty acc uu.unitId c (q + uu.quantityTaken)

/-- The FEFO compensation: for each already-consumed unit, re-read its current
available quantity and add back the amount this allocation took
(transactionService.ts lines 141-158 and 185-202). -/
def rollbackUnits (c : String) (used : List UsedUnit) (l : List DbUnit) : List DbUnit :=
  used.foldl (rollbackStep c) l

/-- FEFOCheckoutRequest of transactionService.ts. -/
structure FEFOCheckoutRequest where
  ndcId : Option String
  medicationName : Option String
  strength : Option Int
  strengthUnit : Option String
  quantity : Int
  patientName : Option String
  patientReferenceId : Option String
  notes : Option String
deriving DecidableEq, Repr

/-- FEFOCheckoutResult of transactionService.ts. -/
structure FEFOCheckoutResult where
  transactions : List DbTransaction
  totalQuantityDispensed : Int
  unitsUsed : List UsedUnit
deriving DecidableEq, Repr

/-- Input validation of checkOutMedicationFEFO (transactionService.ts line 42):
must have a truthy NDC, or a truthy name together with truthy strength and unit. -/
def fefoInputInvalid (input : FEFOCheckoutRequest) : Bool :=
  optStrFalsy input.ndcId &&
    (optStrFalsy input.medicationName || optIntFalsy input.strength ||
      optStrFalsy input.strengthUnit)

/-- Drug resolution of checkOutMedicationFEFO (transactionService.ts lines 62-90):
by NDC, or by case-insensitive medication name with exact strength and unit. -/
def resolveDrugIds (st : DbState) (input : FEFOCheckoutRequest) :
    Except String (List String) :=
  if !optStrFalsy input.ndcId then
    match st.drugs.find? (fun d => d.ndc_id == input.ndcId.getD "") with
    | none => .error ("No medication found with NDC: " ++ input.ndcId.getD "")
    | some d => .ok [d.drug_id]
  else
    let found := st.drugs.filter (fun d =>
      d.medication_name.toLower == (input.medicationName.getD "").toLower &&
      some d.strength == input.strength && some d.strength_unit == input.strengthUnit)
    if found.isEmpty then
      .error ("No medication found matching: " ++ input.medicationName.getD "" ++ " " ++
        toString (input.strength.getD 0) ++ input.strengthUnit.getD "")
    else
      .ok (found.map (fun d => d.drug_id))

/-- Ascending order on expiry dates used by the FEFO unit query. -/
def expiryLE (a b : DbUnit) : Prop := a.expiry_date ≤ b.expiry_date

instance : DecidableRel expiryLE := fun a b => Nat.decLe a.expiry_date b.expiry_date

/-- Unit query of checkOutMedicationFEFO (transactionService.ts lines 51-59):
tenant scope, positive availability, drug match, ordered by ascending expiry date. -/
def fefoCandidates (st : DbState) (clinicId : String) (drugIds : List String) :
    List DbUnit :=
  List.insertionSort expiryLE
    (st.units.filter (fun u =>
      u.clinic_id == clinicId && decide (0 < u.available_quantity) &&
        drugIds.contains u.drug_id))

/-- Medication name of the drug row joined onto a fetched unit row
(drug:drugs(*) in the select). -/
def medNameOf (st : DbState) (u : DbUnit) : String :=
  ((st.drugs.find? (fun d => d.drug_id == u.drug_id)).map
    (fun d => d.medication_name)).getD ""

/-- Note recorded by the FEFO walk: the caller's note if truthy, else the
auto-generated batch note (transactionService.ts line 172). -/
def fefoNote (notes : Option String) (k : Nat) : String :=
  if optStrFalsy notes then
    "FEFO checkout - Unit " ++ toString (k + 1) ++ " of batch"
  else
    notes.getD ""

/-- Check-out transaction row inserted for one FEFO iteration
(transactionService.ts lines 163-176). -/
def fefoTx (userId clinicId : String) (input : FEFOCheckoutRequest) (u : DbUnit)
    (take : Int) (k tid : Nat) : DbTransaction :=
  { transaction_id := tid
    type := .check_out
    quantity := take
    unit_id := u.unit_id
    patient_name := input.patientName
    patient_reference_id := input.patientReferenceId
    user_id := userId
    notes := some (fefoNote input.notes k)
    clinic_id := clinicId }

/-- Result-ledger entry recorded for one FEFO iteration
(transactionService.ts lines 229-234). -/
def fefoUU (u : DbUnit) (mname : String) (take : Int) : UsedUnit :=
  { unitId := u.unit_id
    quantityTaken := take
    expiryDate := u.expiry_date
    medicationName := mname }

/-- The FEFO walk (transactionService.ts lines 121-237) over the ordered candidate
rows (each paired with its joined medication name), threading the units and
transactions tables. updFail and txFail give, per iteration index, the storage
error injected into the unit-update write or the transaction insert. -/
def fefoLoop (userId clinicId : String) (input : FEFOCheckoutRequest)
    (updFail txFail : Nat → Option String) :
    List (DbUnit × String) → Int → List DbTransaction → List UsedUnit →
    List DbUnit → List DbTransaction →
    (Except String (List DbTransaction × List UsedUnit)) ×
      List DbUnit × List DbTransaction
  | [], _, accTx, accUsed, l, T => (.ok (accTx, accUsed), l, T)
  | (u, mname) :: rest, remaining, accTx, accUsed, l, T =>
    if remaining ≤ 0 then (.ok (accTx, accUsed), l, T)
    else
      let take := min remaining u.available_quantity
      match updFail accUsed.length with
      | some msg =>
        (.error ("Failed to update unit: " ++ msg), rollbackUnits clinicId accUsed l, T)
      | none =>
        let l1 := updateQty l u.unit_id clinicId (u.available_quantity - take)
        match txFail accUsed.length with
        | some msg =>
          (.error ("Failed to create transaction: " ++ msg),
           updateQty (rollbackUnits clinicId accUsed l1) u.unit_id clinicId
             u.available_quantity, T)
        | none =>
          let tx := fefoTx userId clinicId input u take accUsed.length T.length
          fefoLoop userId clinicId input updFail txFail rest (remaining - take)
            (accTx ++ [tx]) (accUsed ++ [fefoUU u mname take]) l1 (T ++ [tx])

/-- checkOutMedicationFEFO (transactionService.ts lines 36-244). -/
def checkOutMedicationFEFO (input : FEFOCheckoutRequest) (userId clinicId : String)
    (updFail txFail : Nat → Option String) (st : DbState) :
    (Except String FEFOCheckoutResult) × DbState :=
  if fefoInputInvalid input then
    (.error ("Must provide either NDC or medication name with strength and unit"), st)
  else if input.quantity ≤ 0 then
    (.error ("Quantity must be greater than 0"), st)
  else
    match resolveDrugIds st input with
    | .error e => (.error e, st)
    | .ok drugIds =>
      let units := fefoCandidates st clinicId drugIds
      if units.isEmpty then (.error ("No units available for this medication"), st)
      else
        let totalAvailable := (units.map (fun u => u.available_quantity)).sum
        if totalAvailable < input.quantity then
          (.error ("Insufficient quantity. Available: " ++ toString totalAvailable ++
            ", Requested: " ++ toString input.quantity), st)
        else
          let cand := units.map (fun u => (u, medNameOf st u))
          match fefoLoop userId clinicId input updFail txFail cand input.quantity
              [] [] st.units st.transactions with
          | (.ok (txs, used), l, T) =>
            (.ok { transactions := txs, totalQuantityDispensed := input.quantity,
                   unitsUsed := used },
             { st with units := l, transactions := T })
          | (.error e, l, T) => (.error e, { st with units := l, transactions := T })

/-- CheckOutRequest of src/types/index.ts. -/
structure CheckOutRequest where
  unitId : String
  quantity : Int
  patientName : Option String
  patientReferenceId : Option String
  notes : Option String
deriving DecidableEq, Repr

/-- checkOutUnit (transactionService.ts lines 249-344). -/
def checkOutUnit (input : CheckOutRequest) (userId clinicId : String)
    (updFail txFail : Option String) (st : DbState) :
    (Except String DbTransaction) × DbState :=
  match st.units.find? (unitRowMatches input.unitId clinicId) with
  | none => (.error ("Unit not found"), st)
  | some u =>
    if u.available_quantity < input.quantity then
      (.error ("Insufficient quantity. Available: " ++ toString u.available_quantity ++
        ", Requested: " ++ toString input.quantity), st)
    else
      match updFail with
      | some msg => (.error ("Failed to update unit: " ++ msg), st)
      | none =>
        let st1 := { st with units :=
          (updateQty st.units input.unitId clinicId
            (u.available_quantity - input.quantity)) }
        match txFail with
        | some msg =>
          (.error ("Failed to create transaction: " ++ msg),
           { st1 with units :=
              updateQty st1.units input.unitId clinicId u.available_quantity })
        | none =>
          let tx : DbTransaction :=
            { transaction_id := st1.transactions.length
              type := .check_out
              quantity := input.quantity
              unit_id := input.unitId
              patient_name := input.patientName
              patient_reference_id := input.patientReferenceId
              user_id := userId
              notes := input.notes
              clinic_id := clinicId }
          (.ok tx, { st1 with transactions := st1.transactions ++ [tx] })

/-- Update payload of updateTransaction. -/
structure UpdateTransactionRequest where
  quantity : Option Int
  notes : Option String
deriving DecidableEq, Repr

/-- Row predicate for a transaction addressed by id within a tenant. -/
def txRowMatches (txId : Nat) (c : String) (t : DbTransaction) : Bool :=
  t.transaction_id == txId && t.clinic_id == c

/-- Column update applied by updateTransaction to a matching row. -/
def applyTxUpdate (upd : UpdateTransactionRequest) (t : DbTransaction) : DbTransaction :=
  { t with
    quantity := upd.quantity.getD t.quantity
    notes := (match upd.notes with | some n => some n | none => t.notes) }

/-- updateTransaction (transactionService.ts lines 443-473): writes only the
quantity and notes columns of the transactions table. -/
def updateTransaction (transactionId : Nat) (upd : UpdateTransactionRequest)
    (clinicId : String) (st : DbState) : (Except String DbTransaction) × DbState :=
  match st.transactions.find? (txRowMatches transactionId clinicId) with
  | none => (.error ("Failed to update transaction: no rows returned"), st)
  | some t0 =>
    (.ok (applyTxUpdate upd t0),
     { st with transactions := st.transactions.map (fun t =>
         if txRowMatches transactionId clinicId t then applyTxUpdate upd t else t) })

/-- Drug catalog payload of CreateUnitRequest. -/
structure DrugDataInput where
  medicationName : String
  genericName : String
  strength : Int
  strengthUnit : String
  ndcId : String
  form : String
deriving DecidableEq, Repr

/-- CreateUnitRequest of src/types/index.ts. -/
structure CreateUnitRequest where
  totalQuantity : Int
  availableQuantity : Int
  lotId : String
  expiryDate : Nat
  drugId : Option String
  drugData : Option DrugDataInput
  patientReferenceId : Option String
  optionalNotes : Option String
  manufacturerLotNumber : Option String
deriving DecidableEq, Repr

/-- Modelled from the spec: locationService.getLotById is not under src/.
It looks up the lot record within the tenant. -/
def getLotById (lotId clinicId : String) (st : DbState) : Option DbLot :=
  st.lots.find? (fun lt => lt.lot_id == lotId && lt.clinic_id == clinicId)

/-- Modelled from the spec: locationService.getLotCurrentCapacity is not under
src/. Spec section 4.2: currentCapacity(lotId) is the sum of totalQuantity
across all units in that lot, recomputed on demand. -/
def getLotCurrentCapacity (lotId : String) (st : DbState) : Int :=
  ((st.units.filter (fun u => u.lot_id == lotId)).map (fun u => u.total_quantity)).sum

/-- Modelled from the spec: drugService.getOrCreateDrug is not under src/ (drug
catalog lookup/creation is an external collaborator per spec section 1). It
returns an existing catalog id for the NDC or creates a new catalog row. -/
def getOrCreateDrug (dd : DrugDataInput) (st : DbState) : String × DbState :=
  match st.drugs.find? (fun d => d.ndc_id == dd.ndcId) with
  | some d => (d.drug_id, st)
  | none =>
    let newId := "drug-" ++ toString st.drugs.length
    (newId,
     { st with drugs := st.drugs ++
        [{ drug_id := newId, medication_name := dd.medicationName,
           generic_name := dd.genericName, strength := dd.strength,
           strength_unit := dd.strengthUnit, ndc_id := dd.ndcId, form := dd.form }] })

/-- The part of createUnit after drug resolution (unitService.ts lines 30-151),
running on the resolved drug id and the state the resolution produced. -/
def createUnitStage2 (input : CreateUnitRequest) (userId clinicId : String)
    (newUnitId : String) (now : Nat) (unitInsertFail txInsertFail : Option String)
    (drugId0 : Option String) (st1 : DbState) : (Except String DbUnit) × DbState :=
  if optStrFalsy drugId0 then
    (.error ("Either drugId or drugData must be provided"), st1)
  else
    let drugId := drugId0.getD ""
    match getLotById input.lotId clinicId st1 with
    | none => (.error ("Lot not found"), st1)
    | some lot =>
      let capacityError : Option String :=
        match lot.max_capacity with
        | none => none
        | some maxC =>
          let currentCapacity := getLotCurrentCapacity input.lotId st1
          if currentCapacity + input.totalQuantity > maxC then
            some ("Cannot add unit: Would exceed lot capacity. Current: " ++
              toString currentCapacity ++ "/" ++ toString maxC ++
              ", Attempting to add: " ++ toString input.totalQuantity ++
              ", Available: " ++ toString (maxC - currentCapacity))
          else none
      match capacityError with
      | some e => (.error e, st1)
      | none =>
        match unitInsertFail with
        | some msg => (.error ("Failed to create unit: " ++ msg), st1)
        | none =>
          let u : DbUnit :=
            { unit_id := newUnitId
              total_quantity := input.totalQuantity
              available_quantity := input.availableQuantity
              expiry_date := input.expiryDate
              date_created := now
              lot_id := input.lotId
              drug_id := drugId
              clinic_id := clinicId
              user_id := userId
              patient_reference_id := none
              optional_notes := input.optionalNotes
              manufacturer_lot_number := input.manufacturerLotNumber
              qr_code := some newUnitId }
          let st2 := { st1 with units := st1.units ++ [u] }
          match txInsertFail with
          | some _ => (.ok u, st2)
          | none =>
            let tx : DbTransaction :=
              { transaction_id := st2.transactions.length
                type := .check_in
                quantity := input.totalQuantity
                unit_id := newUnitId
                patient_name := none
                patient_reference_id := none
                user_id := userId
                notes := some ("Initial check-in")
                clinic_id := clinicId }
            (.ok u, { st2 with transactions := st2.transactions ++ [tx] })

/-- createUnit (unitService.ts lines 9-151). newUnitId stands for the row id the
storage layer generates, now for the creation timestamp; unitInsertFail and
txInsertFail inject storage errors into the unit insert and the check-in
transaction insert. The drug id is resolved first (getOrCreateDrug when
drugData is given and drugId is falsy), then the rest of the call runs. -/
def createUnit (input : CreateUnitRequest) (userId clinicId : String)
    (newUnitId : String) (now : Nat) (unitInsertFail txInsertFail : Option String)
    (st : DbState) : (Except String DbUnit) × DbState :=
  match input.drugData, optStrFalsy input.drugId with
  | some dd, true =>
    let p := getOrCreateDrug dd st
    createUnitStage2 input userId clinicId newUnitId now unitInsertFail txInsertFail
      (some p.1) p.2
  | _, _ =>
    createUnitStage2 input userId clinicId newUnitId now unitInsertFail txInsertFail
      input.drugId st

/-- Update payload of updateUnit (unitService.ts lines 344-349). -/
structure UpdateUnitRequest where
  totalQuantity : Option Int
  availableQuantity : Option Int
  expiryDate : Option Nat
  optionalNotes : Option String
deriving DecidableEq, Repr

/-- Column update applied by updateUnit to a matching row. -/
def applyUnitUpdate (upd : UpdateUnitRequest) (u : DbUnit) : DbUnit :=
  { u with
    total_quantity := upd.totalQuantity.getD u.total_quantity
    available_quantity := upd.availableQuantity.getD u.available_quantity
    expiry_date := upd.expiryDate.getD u.expiry_date
    optional_notes := (match upd.optionalNotes with | some n => some n | none => u.optional_notes) }

/-- updateUnit (unitService.ts lines 342-377). -/
def updateUnit (unitId : String) (upd : UpdateUnitRequest) (clinicId : String)
    (st : DbState) : (Except String DbUnit) × DbState :=
  match st.units.find? (unitRowMatches unitId clinicId) with
  | none => (.error ("Failed to update unit: no rows returned"), st)
  | some u0 =>
    (.ok (applyUnitUpdate upd u0),
     { st with units := st.units.map (fun u =>
         if unitRowMatches unitId clinicId u then applyUnitUpdate upd u else u) })

/-- List containment of one character sequence inside another
(the semantics of the JS String.includes used by the search filters). -/
def hasSubList (sub : List Char) : List Char → Bool
  | [] => sub.isEmpty
  | c :: l => sub.isPrefixOf (c :: l) || hasSubList sub l

/-- JS s.includes(pat). -/
def strIncludes (s pat : String) : Bool :=
  hasSubList pat.data s.data

/-- JS truthy-guarded lowercase containment check
(o && o.toLowerCase().includes(searchLower)). -/
def optStrSearchHit (o : Option String) (searchLower : String) : Bool :=
  match o with
  | some s => !s.isEmpty && strIncludes s.toLower searchLower
  | none => false

/-- Client-side fuzzy search filter of getUnits (unitService.ts lines 210-230),
matched against the fetched row and its joined drug, lot and user rows. -/
def unitMatchesSearch (st : DbState) (searchLower : String) (u : DbUnit) : Bool :=
  let drug := st.drugs.find? (fun d => d.drug_id == u.drug_id)
  let lot := st.lots.find? (fun lt => lt.lot_id == u.lot_id)
  let user := st.users.find? (fun w => w.user_id == u.user_id)
  optStrSearchHit u.optional_notes searchLower ||
  optStrSearchHit (drug.map (fun d => d.medication_name)) searchLower ||
  optStrSearchHit (drug.map (fun d => d.generic_name)) searchLower ||
  optStrSearchHit (drug.map (fun d => d.ndc_id)) searchLower ||
  optStrSearchHit (drug.map (fun d => d.form)) searchLower ||
  optStrSearchHit (lot.map (fun lt => lt.source)) searchLower ||
  optStrSearchHit (lot.bind (fun lt => lt.note)) searchLower ||
  optStrSearchHit (some u.unit_id) searchLower ||
  (!(u.available_quantity == 0) &&
    strIncludes (toString u.available_quantity) searchLower) ||
  (!(u.total_quantity == 0) && strIncludes (toString u.total_quantity) searchLower) ||
  optStrSearchHit (user.map (fun w => w.username)) searchLower

/-- Paginated result shape of the unit list queries. -/
structure GetUnitsResult where
  units : List DbUnit
  total : Nat
  page : Nat
  pageSize : Nat
deriving DecidableEq, Repr

/-- Descending creation-date order of the getUnits query. -/
def createdDescLE (a b : DbUnit) : Prop := b.date_created ≤ a.date_created

instance : DecidableRel createdDescLE := fun a b => Nat.decLe b.date_created a.date_created

/-- getUnits (unitService.ts lines 179-239): tenant scope with an exact row
count, order by creation date descending, paginate, then filter the fetched
page client-side; total is the page-filtered count when a truthy search is
given, else the exact tenant-wide count. -/
def getUnits (clinicId : String) (page pageSize : Nat) (search : Option String)
    (st : DbState) : GetUnitsResult :=
  let tenant := st.units.filter (fun u => u.clinic_id == clinicId)
  let count := tenant.length
  let ordered := List.insertionSort createdDescLE tenant
  let pageRows := (ordered.drop ((page - 1) * pageSize)).take pageSize
  let filtered :=
    if !optStrFalsy search && !pageRows.isEmpty then
      pageRows.filter (unitMatchesSearch st (search.getD "").toLower)
    else pageRows
  { units := filtered
    total := if !optStrFalsy search then filtered.length else count
    page := page
    pageSize := pageSize }

/-- ExpirationWindow enum of getUnitsAdvanced. -/
inductive ExpirationWindow where
  | EXPIRED : ExpirationWindow
  | EXPIRING_7_DAYS : ExpirationWindow
  | EXPIRING_30_DAYS : ExpirationWindow
  | EXPIRING_60_DAYS : ExpirationWindow
  | EXPIRING_90_DAYS : ExpirationWindow
  | ALL : ExpirationWindow
deriving DecidableEq, Repr

/-- Sort key enum of getUnitsAdvanced. -/
inductive UnitSortField where
  | EXPIRY_DATE : UnitSortField
  | MEDICATION_NAME : UnitSortField
  | QUANTITY : UnitSortField
  | CREATED_DATE : UnitSortField
  | STRENGTH : UnitSortField
deriving DecidableEq, Repr

/-- Sort direction enum of getUnitsAdvanced. -/
inductive SortOrder where
  | ASC : SortOrder
  | DESC : SortOrder
deriving DecidableEq, Repr

/-- Filter payload of getUnitsAdvanced (unitService.ts lines 497-510). -/
structure AdvancedUnitFilters where
  expiryDateFrom : Option Nat
  expiryDateTo : Option Nat
  locationIds : Option (List String)
  minStrength : Option Int
  maxStrength : Option Int
  strengthUnit : Option String
  expirationWindow : Option ExpirationWindow
  medicationName : Option String
  genericName : Option String
  ndcId : Option String
  sortBy : Option UnitSortField
  sortOrder : Option SortOrder
deriving DecidableEq, Repr

/-- Expiration window filter of getUnitsAdvanced (unitService.ts lines 528-559). -/
def windowPred (today : Nat) (w : ExpirationWindow) (e : Nat) : Bool :=
  match w with
  | .EXPIRED => decide (e < today)
  | .EXPIRING_7_DAYS => decide (today ≤ e) && decide (e ≤ today + 7)
  | .EXPIRING_30_DAYS => decide (today ≤ e) && decide (e ≤ today + 30)
  | .EXPIRING_60_DAYS => decide (today ≤ e) && decide (e ≤ today + 60)
  | .EXPIRING_90_DAYS => decide (today ≤ e) && decide (e ≤ today + 90)
  | .ALL => true

/-- Server-side expiry filtering of getUnitsAdvanced: the window filter (lines
528-559) and the explicit date range filters (lines 562-567) are all chained
onto the same query, so they conjoin. -/
def serverExpiryPred (today : Nat) (f : AdvancedUnitFilters) (e : Nat) : Bool :=
  (match f.expirationWindow with | some w => windowPred today w e | none => true) &&
  (match f.expiryDateFrom with | some a => decide (a ≤ e) | none => true) &&
  (match f.expiryDateTo with | some b => decide (e ≤ b) | none => true)

/-- Effective ascending flag (sortOrder defaults to ASC, line 571). -/
def sortAscending (f : AdvancedUnitFilters) : Bool :=
  match f.sortOrder with
  | some .DESC => false
  | _ => true

/-- Generic stable order-by over a natural key with a direction. -/
def sortByNatKey (key : DbUnit → Nat) (asc : Bool) (l : List DbUnit) : List DbUnit :=
  if asc then List.insertionSort (fun a b => key a ≤ key b) l
  else List.insertionSort (fun a b => key b ≤ key a) l

/-- Generic stable order-by over an integer key with a direction. -/
def sortByIntKey (key : DbUnit → Int) (asc : Bool) (l : List DbUnit) : List DbUnit :=
  if asc then List.insertionSort (fun a b => key a ≤ key b) l
  else List.insertionSort (fun a b => key b ≤ key a) l

/-- Server-side order-by of getUnitsAdvanced (unitService.ts lines 574-587):
name and strength keys fall through to the expiry-date default. -/
def advServerSort (f : AdvancedUnitFilters) (l : List DbUnit) : List DbUnit :=
  match f.sortBy.getD .EXPIRY_DATE with
  | .CREATED_DATE => sortByNatKey (fun u => u.date_created) (sortAscending f) l
  | .QUANTITY => sortByIntKey (fun u => u.available_quantity) (sortAscending f) l
  | _ => sortByNatKey (fun u => u.expiry_date) (sortAscending f) l

/-- Client-side filter of getUnitsAdvanced over joined data (lines 604-649). -/
def advClientFilter (st : DbState) (f : AdvancedUnitFilters) (u : DbUnit) : Bool :=
  let drug := st.drugs.find? (fun d => d.drug_id == u.drug_id)
  let lot := st.lots.find? (fun lt => lt.lot_id == u.lot_id)
  (match f.locationIds with
   | some ids =>
     if ids.isEmpty then true
     else match lot with
       | none => false
       | some lt => ids.contains lt.location_id
   | none => true) &&
  (match drug with
   | none => true
   | some d =>
     (match f.minStrength with | some m => decide (m ≤ d.strength) | none => true) &&
     (match f.maxStrength with | some m => decide (d.strength ≤ m) | none => true) &&
     (if !optStrFalsy f.strengthUnit then d.strength_unit == f.strengthUnit.getD ""
      else true)) &&
  (match drug with
   | none => true
   | some d =>
     (if !optStrFalsy f.medicationName then
        strIncludes d.medication_name.toLower (f.medicationName.getD "").toLower
      else true) &&
     (if !optStrFalsy f.genericName then
        strIncludes d.generic_name.toLower (f.genericName.getD "").toLower
      else true) &&
     (if !optStrFalsy f.ndcId then d.ndc_id == f.ndcId.getD "" else true))

/-- Client-side sort of getUnitsAdvanced for joined keys (lines 652-664). -/
def advClientSort (st : DbState) (f : AdvancedUnitFilters) (l : List DbUnit) :
    List DbUnit :=
  let asc := sortAscending f
  match f.sortBy.getD .EXPIRY_DATE with
  | .MEDICATION_NAME =>
    let nameOf := fun (u : DbUnit) =>
      ((st.drugs.find? (fun d => d.drug_id == u.drug_id)).map
        (fun d => d.medication_name)).getD ""
    if asc then List.insertionSort (fun a b => ¬ nameOf b < nameOf a) l
    else List.insertionSort (fun a b => ¬ nameOf a < nameOf b) l
  | .STRENGTH =>
    let strengthOf := fun (u : DbUnit) =>
      ((st.drugs.find? (fun d => d.drug_id == u.drug_id)).map
        (fun d => d.strength)).getD 0
    sortByIntKey strengthOf asc l
  | _ => l

/-- getUnitsAdvanced (unitService.ts lines 495-673); today is the current date.
The exact row count is taken after the server-side filters and before
pagination and the client-side filters. -/
def getUnitsAdvanced (today : Nat) (clinicId : String) (f : AdvancedUnitFilters)
    (page pageSize : Nat) (st : DbState) : GetUnitsResult :=
  let serverRows := st.units.filter (fun u =>
    u.clinic_id == clinicId && serverExpiryPred today f u.expiry_date)
  let count := serverRows.length
  let sorted := advServerSort f serverRows
  let pageRows := (sorted.drop ((page - 1) * pageSize)).take pageSize
  let filtered := pageRows.filter (advClientFilter st f)
  { units := advClientSort st f filtered
    total := count
    page := page
    pageSize := pageSize }

/-- The unit invariant of the data model (spec section 3). -/
def unitInvariant (u : DbUnit) : Prop :=
  0 ≤ u.available_quantity ∧ u.available_quantity ≤ u.total_quantity

instance (u : DbUnit) : Decidable (unitInvariant u) := by
  unfold unitInvariant
  infer_instance

instance : IsTotal DbUnit expiryLE :=
  ⟨fun a b => Nat.le_total a.expiry_date b.expiry_date⟩

instance : IsTrans DbUnit expiryLE :=
  ⟨fun _ _ _ h1 h2 => Nat.le_trans h1 h2⟩

theorem unitRowMatches_setQty (x c : String) (u : DbUnit) (q : Int) :
    unitRowMatches x c { u with available_quantity := q } = unitRowMatches x c u := rfl

theorem updateQty_cons (u : DbUnit) (t : List DbUnit) (x c : String) (q : Int) :
    updateQty (u :: t) x c q =
      (if unitRowMatches x c u then { u with available_quantity := q } else u) ::
        updateQty t x c q := rfl

theorem readQty_cons (u : DbUnit) (t : List DbUnit) (x c : String) :
    readQty (u :: t) x c =
      if unitRowMatches x c u then some u.available_quantity else readQty t x c := by
  by_cases h : unitRowMatches x c u
  · simp [readQty, List.find?_cons_of_pos, h]
  · simp only [Bool.not_eq_true] at h
    simp [readQty, List.find?_cons_of_neg, h]

theorem updateQty_map_unit_id (l : List DbUnit) (x c : String) (q : Int) :
    (updateQty l x c q).map (fun u => u.unit_id) = l.map (fun u => u.unit_id) := by
  induction l with
  | nil => rfl
  | cons u t ih =>
    rw [updateQty_cons]
    by_cases h : unitRowMatches x c u <;> simp [h, ih]

theorem id_of_unitRowMatches {x c : String} {u : DbUnit}
    (h : unitRowMatches x c u = true) : u.unit_id = x := by
  have h1 := (Bool.and_eq_true _ _).mp h
  exact eq_of_beq h1.1

theorem clinic_of_unitRowMatches {x c : String} {u : DbUnit}
    (h : unitRowMatches x c u = true) : u.clinic_id = c := by
  have h1 := (Bool.and_eq_true _ _).mp h
  exact eq_of_beq h1.2

theorem unitRowMatches_of_eq {x c : String} {u : DbUnit}
    (h1 : u.unit_id = x) (h2 : u.clinic_id = c) : unitRowMatches x c u = true := by
  unfold unitRowMatches
  rw [h1, h2]
  simp

theorem readQty_updateQty_self (l : List DbUnit) (x c : String) (q v : Int)
    (h : readQty l x c = some v) : readQty (updateQty l x c q) x c = some q := by
  induction l with
  | nil => simp [readQty] at h
  | cons u t ih =>
    rw [updateQty_cons, readQty_cons]
    rw [readQty_cons] at h
    by_cases hm : unitRowMatches x c u
    · simp [hm, unitRowMatches_setQty]
    · simp only [hm, if_false, if_neg] at h ⊢
      simp only [Bool.not_eq_true] at hm
      simp [hm, ih h]

theorem readQty_updateQty_ne (l : List DbUnit) {x y : String} (c c' : String) (q : Int)
    (hxy : x ≠ y) : readQty (updateQty l y c q) x c' = readQty l x c' := by
  induction l with
  | nil => rfl
  | cons u t ih =>
    rw [updateQty_cons]
    by_cases hm : unitRowMatches y c u
    · rw [if_pos hm, readQty_cons, readQty_cons]
      have heq : unitRowMatches x c' { u with available_quantity := q } =
          unitRowMatches x c' u := rfl
      rw [heq]
      have hr : unitRowMatches x c' u = false := by
        by_contra hcon
        simp only [Bool.not_eq_false] at hcon
        exact hxy ((id_of_unitRowMatches hcon).symm.trans (id_of_unitRowMatches hm))
      simp only [hr, Bool.false_eq_true, if_false]
      exact ih
    · simp only [Bool.not_eq_true] at hm
      simp only [hm, Bool.false_eq_true, if_false, readQty_cons]
      by_cases hr : unitRowMatches x c' u
      · simp [hr]
      · simp only [Bool.not_eq_true] at hr
        simp [hr, ih]

theorem updateQty_updateQty_self (l : List DbUnit) (x c : String) (q1 q2 : Int) :
    updateQty (updateQty l x c q1) x c q2 = updateQty l x c q2 := by
  induction l with
  | nil => rfl
  | cons u t ih =>
    rw [updateQty_cons, updateQty_cons, updateQty_cons]
    by_cases hm : unitRowMatches x c u
    · simp [hm, unitRowMatches_setQty, ih]
    · simp only [Bool.not_eq_true] at hm
      simp [hm, ih]

theorem updateQty_comm (l : List DbUnit) {x y : String} (c c' : String) (q p : Int)
    (hxy : x ≠ y) :
    updateQty (updateQty l x c q) y c' p = updateQty (updateQty l y c' p) x c q := by
  induction l with
  | nil => rfl
  | cons u t ih =>
    simp only [updateQty_cons]
    by_cases hx : unitRowMatches x c u
    · have hy : unitRowMatches y c' u = false := by
        by_contra hcon
        simp only [Bool.not_eq_false] at hcon
        exact hxy (id_of_unitRowMatches hx ▸ id_of_unitRowMatches hcon)
      have hy2 : unitRowMatches y c' { u with available_quantity := q } = false := hy
      have hx2 : unitRowMatches x c { u with available_quantity := p } = true := hx
      simp [hx, hy, hy2, hx2, ih]
    · simp only [Bool.not_eq_true] at hx
      by_cases hy : unitRowMatches y c' u
      · have hx2 : unitRowMatches x c { u with available_quantity := p } = false := hx
        simp [hx, hy, hx2, ih]
      · simp only [Bool.not_eq_true] at hy
        simp [hx, hy, ih]

theorem updateQty_noop (l : List DbUnit) (x c : String) (q : Int)
    (h : ∀ u ∈ l, unitRowMatches x c u = true → u.available_quantity = q) :
    updateQty l x c q = l := by
  induction l with
  | nil => rfl
  | cons u t ih =>
    rw [updateQty_cons]
    by_cases hm : unitRowMatches x c u
    · have hq := h u (List.mem_cons_self u t) hm
      have h2 : ({ u with available_quantity := q } : DbUnit) = u := by
        rw [← hq]
      rw [if_pos hm, h2, ih (fun v hv hmv => h v (List.mem_cons_of_mem u hv) hmv)]
    · simp only [Bool.not_eq_true] at hm
      simp only [hm, Bool.false_eq_true, if_false]
      rw [ih (fun v hv hmv => h v (List.mem_cons_of_mem u hv) hmv)]

theorem mem_updateQty_ne {l : List DbUnit} {x y : String} {c : String} {q : Int}
    {r : DbUnit} (hr : r ∈ updateQty l y c q) (hid : r.unit_id = x) (hxy : x ≠ y) :
    r ∈ l := by
  induction l with
  | nil => simp [updateQty] at hr
  | cons u t ih =>
    rw [updateQty_cons] at hr
    rcases List.mem_cons.mp hr with h1 | h2
    · by_cases hm : unitRowMatches y c u
      · rw [if_pos hm] at h1
        have : r.unit_id = u.unit_id := by rw [h1]
        exact absurd (hid ▸ this.symm ▸ id_of_unitRowMatches hm) hxy
      · simp only [Bool.not_eq_true] at hm
        simp only [hm, Bool.false_eq_true, if_false] at h1
        exact h1 ▸ List.mem_cons_self u t
    · exact List.mem_cons_of_mem u (ih h2)

theorem find?_unitRow_of_nodup {l : List DbUnit} {x c : String} {u : DbUnit}
    (hnodup : (l.map (fun v => v.unit_id)).Nodup)
    (hu : u ∈ l) (hx : u.unit_id = x) (hc : u.clinic_id = c) :
    l.find? (unitRowMatches x c) = some u := by
  induction l with
  | nil => cases hu
  | cons v t ih =>
    rw [List.map_cons, List.nodup_cons] at hnodup
    rcases List.mem_cons.mp hu with h1 | h2
    · subst h1
      simp [List.find?_cons_of_pos, unitRowMatches_of_eq hx hc]
    · by_cases hm : unitRowMatches x c v
      · exfalso
        apply hnodup.1
        rw [id_of_unitRowMatches hm, ← hx]
        exact List.mem_map_of_mem _ h2
      · simp only [Bool.not_eq_true] at hm
        rw [List.find?_cons_of_neg _ (by simp [hm])]
        exact ih hnodup.2 h2

theorem readQty_eq_of_mem {l : List DbUnit} {x c : String} {u : DbUnit}
    (hnodup : (l.map (fun v => v.unit_id)).Nodup)
    (hu : u ∈ l) (hx : u.unit_id = x) (hc : u.clinic_id = c) :
    readQty l x c = some u.available_quantity := by
  rw [readQty, find?_unitRow_of_nodup hnodup hu hx hc]
  rfl

theorem avail_eq_of_readQty {l : List DbUnit} {x c : String} {v : Int} {r : DbUnit}
    (hnodup : (l.map (fun u => u.unit_id)).Nodup)
    (hread : readQty l x c = some v)
    (hr : r ∈ l) (hx : r.unit_id = x) (hc : r.clinic_id = c) :
    r.available_quantity = v := by
  rw [readQty_eq_of_mem hnodup hr hx hc] at hread
  exact Option.some.inj hread

theorem rollbackUnits_cons (c : String) (uu : UsedUnit) (us : List UsedUnit)
    (l : List DbUnit) :
    rollbackUnits c (uu :: us) l = rollbackUnits c us (rollbackStep c l uu) := rfl

theorem rollbackUnits_append_single (c : String) (us : List UsedUnit) (uu : UsedUnit)
    (l : List DbUnit) :
    rollbackUnits c (us ++ [uu]) l = rollbackStep c (rollbackUnits c us l) uu := by
  unfold rollbackUnits
  rw [List.foldl_append]
  rfl

theorem rollbackStep_map_unit_id (c : String) (l : List DbUnit) (uu : UsedUnit) :
    (rollbackStep c l uu).map (fun u => u.unit_id) = l.map (fun u => u.unit_id) := by
  unfold rollbackStep
  cases h : readQty l uu.unitId c with
  | none => rfl
  | some q => exact updateQty_map_unit_id l uu.unitId c (q + uu.quantityTaken)

theorem rollbackUnits_map_unit_id (c : String) (us : List UsedUnit) (l : List DbUnit) :
    (rollbackUnits c us l).map (fun u => u.unit_id) = l.map (fun u => u.unit_id) := by
  induction us generalizing l with
  | nil => rfl
  | cons uu t ih =>
    rw [rollbackUnits_cons, ih, rollbackStep_map_unit_id]

theorem rollbackStep_comm_update {x : String} (c c' : String) (q : Int)
    (l : List DbUnit) (uu : UsedUnit) (hne : uu.unitId ≠ x) :
    rollbackStep c (updateQty l x c' q) uu = updateQty (rollbackStep c l uu) x c' q := by
  unfold rollbackStep
  rw [readQty_updateQty_ne l c' c q hne]
  cases h : readQty l uu.unitId c with
  | none => rfl
  | some v => exact updateQty_comm l c' c q (v + uu.quantityTaken) (fun hcon => hne hcon.symm)

theorem rollbackUnits_comm_update (c c' : String) (q : Int) (us : List UsedUnit)
    (l : List DbUnit) {x : String} (hx : x ∉ us.map (fun uu => uu.unitId)) :
    rollbackUnits c us (updateQty l x c' q) = updateQty (rollbackUnits c us l) x c' q := by
  induction us generalizing l with
  | nil => rfl
  | cons uu t ih =>
    rw [rollbackUnits_cons, rollbackUnits_cons]
    rw [List.map_cons] at hx
    have h1 : uu.unitId ≠ x := by
      intro hcon
      apply hx
      rw [← hcon]
      exact List.mem_cons_self _ _
    rw [rollbackStep_comm_update c c' q l uu h1]
    exact ih (rollbackStep c l uu) (fun hmem => hx (List.mem_cons_of_mem _ hmem))

theorem readQty_rollbackStep_ne (c c' : String) (l : List DbUnit) (uu : UsedUnit)
    {x : String} (h1 : uu.unitId ≠ x) :
    readQty (rollbackStep c l uu) x c' = readQty l x c' := by
  unfold rollbackStep
  cases h : readQty l uu.unitId c with
  | none => rfl
  | some v => exact readQty_updateQty_ne l c c' (v + uu.quantityTaken) (fun hcon => h1 hcon.symm)

theorem readQty_rollbackUnits_ne (c c' : String) (us : List UsedUnit)
    (l : List DbUnit) {x : String} (hx : x ∉ us.map (fun uu => uu.unitId)) :
    readQty (rollbackUnits c us l) x c' = readQty l x c' := by
  induction us generalizing l with
  | nil => rfl
  | cons uu t ih =>
    rw [rollbackUnits_cons]
    rw [List.map_cons] at hx
    have h1 : uu.unitId ≠ x := by
      intro hcon
      apply hx
      rw [← hcon]
      exact List.mem_cons_self _ _
    rw [ih (rollbackStep c l uu) (fun hmem => hx (List.mem_cons_of_mem _ hmem))]
    exact readQty_rollbackStep_ne c c' l uu h1

theorem mem_rollbackStep_ne {c : String} {l : List DbUnit} {uu : UsedUnit}
    {r : DbUnit} {x : String} (h1 : uu.unitId ≠ x)
    (hr : r ∈ rollbackStep c l uu) (hx : r.unit_id = x) : r ∈ l := by
  unfold rollbackStep at hr
  cases hcase : readQty l uu.unitId c with
  | none =>
    rw [hcase] at hr
    exact hr
  | some v =>
    rw [hcase] at hr
    exact mem_updateQty_ne hr hx (fun hcon => h1 hcon.symm)

theorem mem_rollbackUnits_ne {c : String} {us : List UsedUnit} {l : List DbUnit}
    {r : DbUnit} {x : String} (hx : x ∉ us.map (fun uu => uu.unitId))
    (hr : r ∈ rollbackUnits c us l) (hid : r.unit_id = x) : r ∈ l := by
  induction us generalizing l with
  | nil => exact hr
  | cons uu t ih =>
    rw [rollbackUnits_cons] at hr
    rw [List.map_cons] at hx
    have h1 : uu.unitId ≠ x := by
      intro hcon
      apply hx
      rw [← hcon]
      exact List.mem_cons_self _ _
    exact mem_rollbackStep_ne h1
      (ih (fun hmem => hx (List.mem_cons_of_mem _ hmem)) hr) hid

theorem updateQty_restore_after_rollback {l : List DbUnit} {x c : String} {v : Int}
    (hnodup : (l.map (fun u => u.unit_id)).Nodup)
    {us : List UsedUnit} (hx : x ∉ us.map (fun uu => uu.unitId))
    (hread : readQty l x c = some v) :
    updateQty (rollbackUnits c us l) x c v = rollbackUnits c us l := by
  apply updateQty_noop
  intro r hr hm
  exact avail_eq_of_readQty hnodup hread
    (mem_rollbackUnits_ne hx hr (id_of_unitRowMatches hm))
    (id_of_unitRowMatches hm) (clinic_of_unitRowMatches hm)

theorem fefoLoop_nil (userId clinicId : String) (input : FEFOCheckoutRequest)
    (updFail txFail : Nat → Option String) (remaining : Int)
    (accTx : List DbTransaction) (accUsed : List UsedUnit)
    (l : List DbUnit) (T : List DbTransaction) :
    fefoLoop userId clinicId input updFail txFail [] remaining accTx accUsed l T =
      (.ok (accTx, accUsed), l, T) := rfl

theorem fefoLoop_cons (userId clinicId : String) (input : FEFOCheckoutRequest)
    (updFail txFail : Nat → Option String) (u : DbUnit) (mname : String)
    (rest : List (DbUnit × String)) (remaining : Int)
    (accTx : List DbTransaction) (accUsed : List UsedUnit)
    (l : List DbUnit) (T : List DbTransaction) :
    fefoLoop userId clinicId input updFail txFail ((u, mname) :: rest) remaining
        accTx accUsed l T =
      if remaining ≤ 0 then (.ok (accTx, accUsed), l, T)
      else
        match updFail accUsed.length with
        | some msg =>
          (.error ("Failed to update unit: " ++ msg),
           rollbackUnits clinicId accUsed l, T)
        | none =>
          match txFail accUsed.length with
          | some msg =>
            (.error ("Failed to create transaction: " ++ msg),
             updateQty
               (rollbackUnits clinicId accUsed
                 (updateQty l u.unit_id clinicId
                   (u.available_quantity - min remaining u.available_quantity)))
               u.unit_id clinicId u.available_quantity, T)
          | none =>
            fefoLoop userId clinicId input updFail txFail rest
              (remaining - min remaining u.available_quantity)
              (accTx ++ [fefoTx userId clinicId input u
                (min remaining u.available_quantity) accUsed.length T.length])
              (accUsed ++ [fefoUU u mname (min remaining u.available_quantity)])
              (updateQty l u.unit_id clinicId
                (u.available_quantity - min remaining u.available_quantity))
              (T ++ [fefoTx userId clinicId input u
                (min remaining u.available_quantity) accUsed.length T.length]) := rfl

theorem fefoLoop_ok_sum (userId clinicId : String) (input : FEFOCheckoutRequest)
    (updFail txFail : Nat → Option String) :
    ∀ (cand : List (DbUnit × String)) (remaining : Int) (accTx : List DbTransaction)
      (accUsed : List UsedUnit) (l : List DbUnit) (T : List DbTransaction)
      (txs : List DbTransaction) (used : List UsedUnit) (l' : List DbUnit)
      (T' : List DbTransaction),
      0 ≤ remaining →
      remaining ≤ (cand.map (fun p => p.1.available_quantity)).sum →
      (∀ p ∈ cand, 0 < p.1.available_quantity) →
      fefoLoop userId clinicId input updFail txFail cand remaining accTx accUsed l T =
        (.ok (txs, used), l', T') →
      (used.map (fun uu => uu.quantityTaken)).sum =
        (accUsed.map (fun uu => uu.quantityTaken)).sum + remaining
  | [], remaining, accTx, accUsed, l, T, txs, used, l', T', h0, hle, _, hrun => by
    rw [fefoLoop_nil] at hrun
    simp only [Prod.mk.injEq, Except.ok.injEq] at hrun
    obtain ⟨⟨_, h2⟩, _, _⟩ := hrun
    simp only [List.map_nil, List.sum_nil] at hle
    rw [← h2, le_antisymm hle h0, add_zero]
  | (u, mname) :: rest, remaining, accTx, accUsed, l, T, txs, used, l', T', h0, hle,
      hpos, hrun => by
    rw [fefoLoop_cons] at hrun
    by_cases hrem : remaining ≤ 0
    · rw [if_pos hrem] at hrun
      simp only [Prod.mk.injEq, Except.ok.injEq] at hrun
      obtain ⟨⟨_, h2⟩, _, _⟩ := hrun
      rw [← h2, le_antisymm hrem h0, add_zero]
    · rw [if_neg hrem] at hrun
      cases hupd : updFail accUsed.length with
      | some msg => simp [hupd] at hrun
      | none =>
        simp only [hupd] at hrun
        cases htx : txFail accUsed.length with
        | some msg => simp [htx] at hrun
        | none =>
          simp only [htx] at hrun
          have hposu : 0 < u.available_quantity := hpos (u, mname) (List.mem_cons_self _ _)
          have hsum0 : 0 ≤ (rest.map (fun p => p.1.available_quantity)).sum := by
            apply List.sum_nonneg
            intro x hx
            obtain ⟨p, hp, hpx⟩ := List.mem_map.mp hx
            exact le_of_lt (hpx ▸ hpos p (List.mem_cons_of_mem _ hp))
          simp only [List.map_cons, List.sum_cons] at hle
          have key := fefoLoop_ok_sum userId clinicId input updFail txFail rest
            (remaining - min remaining u.available_quantity) _ _ _ _ txs used l' T'
            (by omega) (by omega)
            (fun p hp => hpos p (List.mem_cons_of_mem _ hp)) hrun
          rw [key, List.map_append, List.sum_append]
          simp only [fefoUU, List.map_cons, List.map_nil, List.sum_cons, List.sum_nil]
          omega

theorem fefoLoop_ok_expiries (userId clinicId : String) (input : FEFOCheckoutRequest)
    (updFail txFail : Nat → Option String) :
    ∀ (cand : List (DbUnit × String)) (remaining : Int) (accTx : List DbTransaction)
      (accUsed : List UsedUnit) (l : List DbUnit) (T : List DbTransaction)
      (txs : List DbTransaction) (used : List UsedUnit) (l' : List DbUnit)
      (T' : List DbTransaction),
      fefoLoop userId clinicId input updFail txFail cand remaining accTx accUsed l T =
        (.ok (txs, used), l', T') →
      ∃ t1 t2, used.map (fun uu => uu.expiryDate) =
          accUsed.map (fun uu => uu.expiryDate) ++ t1 ∧
        cand.map (fun p => p.1.expiry_date) = t1 ++ t2
  | [], remaining, accTx, accUsed, l, T, txs, used, l', T', hrun => by
    rw [fefoLoop_nil] at hrun
    simp only [Prod.mk.injEq, Except.ok.injEq] at hrun
    obtain ⟨⟨_, h2⟩, _, _⟩ := hrun
    exact ⟨[], [], by rw [← h2, List.append_nil], rfl⟩
  | (u, mname) :: rest, remaining, accTx, accUsed, l, T, txs, used, l', T', hrun => by
    rw [fefoLoop_cons] at hrun
    by_cases hrem : remaining ≤ 0
    · rw [if_pos hrem] at hrun
      simp only [Prod.mk.injEq, Except.ok.injEq] at hrun
      obtain ⟨⟨_, h2⟩, _, _⟩ := hrun
      exact ⟨[], (u, mname).1.expiry_date :: rest.map (fun p => p.1.expiry_date),
        by rw [← h2, List.append_nil], by simp⟩
    · rw [if_neg hrem] at hrun
      cases hupd : updFail accUsed.length with
      | some msg => simp [hupd] at hrun
      | none =>
        simp only [hupd] at hrun
        cases htx : txFail accUsed.length with
        | some msg => simp [htx] at hrun
        | none =>
          simp only [htx] at hrun
          obtain ⟨t1, t2, h1, h2⟩ := fefoLoop_ok_expiries userId clinicId input
            updFail txFail rest (remaining - min remaining u.available_quantity)
            _ _ _ _ txs used l' T' hrun
          refine ⟨u.expiry_date :: t1, t2, ?_, ?_⟩
          · rw [h1]
            simp [fefoUU]
          · simp only [List.map_cons, List.cons_append, h2]

theorem fefoLoop_error_restores (userId clinicId : String) (input : FEFOCheckoutRequest)
    (updFail txFail : Nat → Option String) :
    ∀ (cand : List (DbUnit × String)) (remaining : Int) (accTx : List DbTransaction)
      (accUsed : List UsedUnit) (l : List DbUnit) (T : List DbTransaction)
      (e : String) (l' : List DbUnit) (T' : List DbTransaction) (U0 : List DbUnit),
      (l.map (fun u => u.unit_id)).Nodup →
      ((accUsed.map (fun uu => uu.unitId)) ++ cand.map (fun p => p.1.unit_id)).Nodup →
      (∀ p ∈ cand, readQty l p.1.unit_id clinicId = some p.1.available_quantity) →
      rollbackUnits clinicId accUsed l = U0 →
      fefoLoop userId clinicId input updFail txFail cand remaining accTx accUsed l T =
        (.error e, l', T') →
      l' = U0
  | [], remaining, accTx, accUsed, l, T, e, l', T', U0, _, _, _, _, hrun => by
    rw [fefoLoop_nil] at hrun
    simp at hrun
  | (u, mname) :: rest, remaining, accTx, accUsed, l, T, e, l', T', U0, hnodup,
      hnodupAC, hsnap, hroll, hrun => by
    rw [fefoLoop_cons] at hrun
    by_cases hrem : remaining ≤ 0
    · rw [if_pos hrem] at hrun
      simp at hrun
    · rw [if_neg hrem] at hrun
      have hx : u.unit_id ∉ accUsed.map (fun uu => uu.unitId) := by
        intro hmem
        rcases List.nodup_append.mp hnodupAC with ⟨_, _, hdisj⟩
        exact hdisj hmem (by simp)
      have hreadu : readQty l u.unit_id clinicId = some u.available_quantity :=
        hsnap (u, mname) (List.mem_cons_self _ _)
      cases hupd : updFail accUsed.length with
      | some msg =>
        simp only [hupd, Prod.mk.injEq, Except.error.injEq] at hrun
        rw [← hrun.2.1, hroll]
      | none =>
        simp only [hupd] at hrun
        cases htx : txFail accUsed.length with
        | some msg =>
          simp only [htx, Prod.mk.injEq, Except.error.injEq] at hrun
          rw [← hrun.2.1,
            rollbackUnits_comm_update clinicId clinicId _ accUsed l hx,
            updateQty_updateQty_self,
            updateQty_restore_after_rollback hnodup hx hreadu, hroll]
        | none =>
          simp only [htx] at hrun
          have hxrest : u.unit_id ∉ rest.map (fun p => p.1.unit_id) := by
            rcases List.nodup_append.mp hnodupAC with ⟨_, hnodXR, _⟩
            simp only [List.map_cons, List.nodup_cons] at hnodXR
            exact hnodXR.1
          refine fefoLoop_error_restores userId clinicId input updFail txFail rest
            (remaining - min remaining u.available_quantity) _ _ _ _ e l' T' U0
            ?_ ?_ ?_ ?_ hrun
          · rw [updateQty_map_unit_id]
            exact hnodup
          · have hlist : (accUsed ++ [fefoUU u mname (min remaining u.available_quantity)]).map
                  (fun uu => uu.unitId) ++ rest.map (fun p => p.1.unit_id) =
                (accUsed.map (fun uu => uu.unitId)) ++
                  ((u, mname) :: rest).map (fun p => p.1.unit_id) := by
              simp [fefoUU]
            rw [hlist]
            exact hnodupAC
          · intro p hp
            have hpne : p.1.unit_id ≠ u.unit_id := by
              intro hcon
              apply hxrest
              rw [← hcon]
              exact List.mem_map_of_mem _ hp
            rw [readQty_updateQty_ne l clinicId clinicId _ hpne]
            exact hsnap p (List.mem_cons_of_mem _ hp)
          · rw [rollbackUnits_append_single,
              rollbackUnits_comm_update clinicId clinicId _ accUsed l hx]
            have hreadR : readQty (rollbackUnits clinicId accUsed l) u.unit_id clinicId =
                some u.available_quantity := by
              rw [readQty_rollbackUnits_ne clinicId clinicId accUsed l hx]
              exact hreadu
            have hstep : rollbackStep clinicId
                (updateQty (rollbackUnits clinicId accUsed l) u.unit_id clinicId
                  (u.available_quantity - min remaining u.available_quantity))
                (fefoUU u mname (min remaining u.available_quantity)) =
                updateQty
                  (updateQty (rollbackUnits clinicId accUsed l) u.unit_id clinicId
                    (u.available_quantity - min remaining u.available_quantity))
                  u.unit_id clinicId
                  ((u.available_quantity - min remaining u.available_quantity) +
                    min remaining u.available_quantity) := by
              unfold rollbackStep
              rw [show (fefoUU u mname (min remaining u.available_quantity)).unitId =
                  u.unit_id from rfl,
                readQty_updateQty_self _ _ _ _ _ hreadR]
              rfl
            rw [hstep, updateQty_updateQty_self]
            have harith : (u.available_quantity - min remaining u.available_quantity) +
                min remaining u.available_quantity = u.available_quantity := by omega
            rw [harith, updateQty_restore_after_rollback hnodup hx hreadu, hroll]

theorem updateQty_invariant {l : List DbUnit} {x c : String} {q : Int}
    (hinv : ∀ r ∈ l, unitInvariant r)
    (hq : ∀ r ∈ l, unitRowMatches x c r = true → 0 ≤ q ∧ q ≤ r.total_quantity) :
    ∀ r ∈ updateQty l x c q, unitInvariant r := by
  intro r hr
  obtain ⟨r₀, hr₀, hfr⟩ := List.mem_map.mp hr
  by_cases hm : unitRowMatches x c r₀
  · rw [if_pos hm] at hfr
    rw [← hfr]
    exact hq r₀ hr₀ hm
  · simp only [Bool.not_eq_true] at hm
    simp only [hm, Bool.false_eq_true, if_false] at hfr
    exact hfr ▸ hinv r₀ hr₀

theorem fefoLoop_ok_invariant (userId clinicId : String) (input : FEFOCheckoutRequest)
    (updFail txFail : Nat → Option String) :
    ∀ (cand : List (DbUnit × String)) (remaining : Int) (accTx : List DbTransaction)
      (accUsed : List UsedUnit) (l : List DbUnit) (T : List DbTransaction)
      (txs : List DbTransaction) (used : List UsedUnit) (l' : List DbUnit)
      (T' : List DbTransaction),
      (l.map (fun u => u.unit_id)).Nodup →
      ((accUsed.map (fun uu => uu.unitId)) ++ cand.map (fun p => p.1.unit_id)).Nodup →
      (∀ p ∈ cand, readQty l p.1.unit_id clinicId = some p.1.available_quantity) →
      (∀ p ∈ cand, 0 < p.1.available_quantity) →
      (∀ r ∈ l, unitInvariant r) →
      fefoLoop userId clinicId input updFail txFail cand remaining accTx accUsed l T =
        (.ok (txs, used), l', T') →
      ∀ r ∈ l', unitInvariant r
  | [], remaining, accTx, accUsed, l, T, txs, used, l', T', _, _, _, _, hinv, hrun => by
    rw [fefoLoop_nil] at hrun
    simp only [Prod.mk.injEq, Except.ok.injEq] at hrun
    exact hrun.2.1 ▸ hinv
  | (u, mname) :: rest, remaining, accTx, accUsed, l, T, txs, used, l', T', hnodup,
      hnodupAC, hsnap, hpos, hinv, hrun => by
    rw [fefoLoop_cons] at hrun
    by_cases hrem : remaining ≤ 0
    · rw [if_pos hrem] at hrun
      simp only [Prod.mk.injEq, Except.ok.injEq] at hrun
      exact hrun.2.1 ▸ hinv
    · rw [if_neg hrem] at hrun
      cases hupd : updFail accUsed.length with
      | some msg => simp [hupd] at hrun
      | none =>
        simp only [hupd] at hrun
        cases htx : txFail accUsed.length with
        | some msg => simp [htx] at hrun
        | none =>
          simp only [htx] at hrun
          have hreadu : readQty l u.unit_id clinicId = some u.available_quantity :=
            hsnap (u, mname) (List.mem_cons_self _ _)
          have hposu : 0 < u.available_quantity := hpos (u, mname) (List.mem_cons_self _ _)
          have hxrest : u.unit_id ∉ rest.map (fun p => p.1.unit_id) := by
            rcases List.nodup_append.mp hnodupAC with ⟨_, hnodXR, _⟩
            simp only [List.map_cons, List.nodup_cons] at hnodXR
            exact hnodXR.1
          have hinv1 : ∀ r ∈ updateQty l u.unit_id clinicId
              (u.available_quantity - min remaining u.available_quantity), unitInvariant r := by
            apply updateQty_invariant hinv
            intro r hr hm
            have havail : r.available_quantity = u.available_quantity :=
              avail_eq_of_readQty hnodup hreadu hr (id_of_unitRowMatches hm)
                (clinic_of_unitRowMatches hm)
            have htotal := (hinv r hr).2
            rw [havail] at htotal
            constructor
            · omega
            · omega
          refine fefoLoop_ok_invariant userId clinicId input updFail txFail rest
            (remaining - min remaining u.available_quantity) _ _ _ _ txs used l' T'
            ?_ ?_ ?_ (fun p hp => hpos p (List.mem_cons_of_mem _ hp)) hinv1 hrun
          · rw [updateQty_map_unit_id]
            exact hnodup
          · have hlist : (accUsed ++ [fefoUU u mname (min remaining u.available_quantity)]).map
                  (fun uu => uu.unitId) ++ rest.map (fun p => p.1.unit_id) =
                (accUsed.map (fun uu => uu.unitId)) ++
                  ((u, mname) :: rest).map (fun p => p.1.unit_id) := by
              simp [fefoUU]
            rw [hlist]
            exact hnodupAC
          · intro p hp
            have hpne : p.1.unit_id ≠ u.unit_id := by
              intro hcon
              apply hxrest
              rw [← hcon]
              exact List.mem_map_of_mem _ hp
            rw [readQty_updateQty_ne l clinicId clinicId _ hpne]
            exact hsnap p (List.mem_cons_of_mem _ hp)

theorem mem_fefoCandidates {st : DbState} {c : String} {ds : List String} {u : DbUnit}
    (hu : u ∈ fefoCandidates st c ds) :
    u ∈ st.units ∧ u.clinic_id = c ∧ 0 < u.available_quantity := by
  have h1 := (List.perm_insertionSort expiryLE _).mem_iff.mp hu
  have h2 := List.mem_filter.mp h1
  refine ⟨h2.1, ?_, ?_⟩
  · have := (Bool.and_eq_true _ _).mp h2.2
    have := (Bool.and_eq_true _ _).mp this.1
    exact eq_of_beq this.1
  · have := (Bool.and_eq_true _ _).mp h2.2
    have := (Bool.and_eq_true _ _).mp this.1
    exact of_decide_eq_true this.2

theorem fefoCandidates_ids_nodup {st : DbState} {c : String} {ds : List String}
    (h : (st.units.map (fun u => u.unit_id)).Nodup) :
    ((fefoCandidates st c ds).map (fun u => u.unit_id)).Nodup := by
  have hperm := (List.perm_insertionSort expiryLE
    (st.units.filter (fun u =>
      u.clinic_id == c && decide (0 < u.available_quantity) &&
        ds.contains u.drug_id))).map (fun u => u.unit_id)
  unfold fefoCandidates
  rw [List.Perm.nodup_iff hperm]
  exact List.Nodup.sublist (List.Sublist.map _ (List.filter_sublist _)) h

theorem fefoCandidates_sorted (st : DbState) (c : String) (ds : List String) :
    List.Sorted expiryLE (fefoCandidates st c ds) :=
  List.sorted_insertionSort expiryLE _

theorem fefoCandidates_snapshot {st : DbState} {c : String} {ds : List String}
    (hnodup : (st.units.map (fun u => u.unit_id)).Nodup) :
    ∀ u ∈ fefoCandidates st c ds,
      readQty st.units u.unit_id c = some u.available_quantity := by
  intro u hu
  obtain ⟨hmem, hc, _⟩ := mem_fefoCandidates hu
  exact readQty_eq_of_mem hnodup hmem rfl hc

theorem checkOutMedicationFEFO_eq (input : FEFOCheckoutRequest)
    (userId clinicId : String) (updFail txFail : Nat → Option String) (st : DbState) :
    checkOutMedicationFEFO input userId clinicId updFail txFail st =
      if fefoInputInvalid input then
        (.error ("Must provide either NDC or medication name with strength and unit"), st)
      else if input.quantity ≤ 0 then
        (.error ("Quantity must be greater than 0"), st)
      else
        match resolveDrugIds st input with
        | .error e => (.error e, st)
        | .ok drugIds =>
          if (fefoCandidates st clinicId drugIds).isEmpty then
            (.error ("No units available for this medication"), st)
          else if ((fefoCandidates st clinicId drugIds).map
              (fun u => u.available_quantity)).sum < input.quantity then
            (.error ("Insufficient quantity. Available: " ++
              toString ((fefoCandidates st clinicId drugIds).map
                (fun u => u.available_quantity)).sum ++
              ", Requested: " ++ toString input.quantity), st)
          else
            match fefoLoop userId clinicId input updFail txFail
                ((fefoCandidates st clinicId drugIds).map (fun u => (u, medNameOf st u)))
                input.quantity [] [] st.units st.transactions with
            | (.ok (txs, used), l, T) =>
              (.ok { transactions := txs, totalQuantityDispensed := input.quantity,
                     unitsUsed := used },
               { st with units := l, transactions := T })
            | (.error e, l, T) => (.error e, { st with units := l, transactions := T }) :=
  rfl

/-- Every error outcome of checkOutMedicationFEFO leaves the units table exactly
as it was: the pre-walk guards fail before mutating, and the in-walk failures
run the compensation, which restores every decremented row. -/
theorem fefo_error_units_eq {input : FEFOCheckoutRequest} {userId clinicId : String}
    {updFail txFail : Nat → Option String} {st : DbState} {e : String} {st' : DbState}
    (hnodup : (st.units.map (fun u => u.unit_id)).Nodup)
    (hrun : checkOutMedicationFEFO input userId clinicId updFail txFail st =
      (.error e, st')) :
    st'.units = st.units := by
  rw [checkOutMedicationFEFO_eq] at hrun
  split at hrun
  · simp only [Prod.mk.injEq] at hrun
    rw [← hrun.2]
  · split at hrun
    · simp only [Prod.mk.injEq] at hrun
      rw [← hrun.2]
    · split at hrun
      · simp only [Prod.mk.injEq] at hrun
        rw [← hrun.2]
      · rename_i drugIds heqres
        split at hrun
        · simp only [Prod.mk.injEq] at hrun
          rw [← hrun.2]
        · split at hrun
          · simp only [Prod.mk.injEq] at hrun
            rw [← hrun.2]
          · split at hrun
            · simp at hrun
            · rename_i res l T heqloop
              simp only [Prod.mk.injEq, Except.error.injEq] at hrun
              rw [← hrun.2]
              show l = st.units
              refine fefoLoop_error_restores userId clinicId input updFail txFail
                _ input.quantity [] [] st.units st.transactions _ l T st.units
                hnodup ?_ ?_ rfl heqloop
              · simp only [List.map_nil, List.nil_append, List.map_map]
                exact fefoCandidates_ids_nodup hnodup
              · intro p hp
                obtain ⟨u, hu, hup⟩ := List.mem_map.mp hp
                rw [← hup]
                exact fefoCandidates_snapshot hnodup u hu

theorem candPairs_avail_sum (st : DbState) (units : List DbUnit) :
    ((units.map (fun u => (u, medNameOf st u))).map
      (fun p => p.1.available_quantity)).sum =
      (units.map (fun u => u.available_quantity)).sum := by
  rw [List.map_map]
  rfl

theorem candPairs_expiries (st : DbState) (units : List DbUnit) :
    (units.map (fun u => (u, medNameOf st u))).map (fun p => p.1.expiry_date) =
      units.map (fun u => u.expiry_date) := by
  rw [List.map_map]
  rfl

/-- C1: for every successful call to checkOutMedicationFEFO, the sum of
quantityTaken over the returned unitsUsed entries equals
totalQuantityDispensed, which equals the requested quantity, and the
unitsUsed entries appear in non-decreasing expiry-date order. -/
theorem fefo_success_conservation
    (input : FEFOCheckoutRequest) (userId clinicId : String)
    (updFail txFail : Nat → Option String) (st st' : DbState)
    (res : FEFOCheckoutResult)
    (hrun : checkOutMedicationFEFO input userId clinicId updFail txFail st =
      (.ok res, st')) :
    (res.unitsUsed.map (fun uu => uu.quantityTaken)).sum = res.totalQuantityDispensed ∧
    res.totalQuantityDispensed = input.quantity ∧
    List.Sorted (fun a b => a ≤ b) (res.unitsUsed.map (fun uu => uu.expiryDate)) := by
  rw [checkOutMedicationFEFO_eq] at hrun
  split at hrun
  · simp at hrun
  · split at hrun
    · simp at hrun
    · rename_i hq
      split at hrun
      · simp at hrun
      · rename_i drugIds heqres
        split at hrun
        · simp at hrun
        · split at hrun
          · simp at hrun
          · rename_i hsum
            split at hrun
            · rename_i txs used l T heqloop
              simp only [Prod.mk.injEq, Except.ok.injEq] at hrun
              obtain ⟨hres, _⟩ := hrun
              have hq0 : 0 ≤ input.quantity := by omega
              have hsum' : input.quantity ≤
                  (((fefoCandidates st clinicId drugIds).map
                    (fun u => (u, medNameOf st u))).map
                      (fun p => p.1.available_quantity)).sum := by
                rw [candPairs_avail_sum]
                omega
              have hpos : ∀ p ∈ (fefoCandidates st clinicId drugIds).map
                  (fun u => (u, medNameOf st u)), 0 < p.1.available_quantity := by
                intro p hp
                obtain ⟨u, hu, hup⟩ := List.mem_map.mp hp
                rw [← hup]
                exact (mem_fefoCandidates hu).2.2
              have hsumeq := fefoLoop_ok_sum userId clinicId input updFail txFail
                _ input.quantity [] [] st.units st.transactions txs used l T
                hq0 hsum' hpos heqloop
              simp only [List.map_nil, List.sum_nil, zero_add] at hsumeq
              obtain ⟨t1, t2, hused, hcand⟩ := fefoLoop_ok_expiries userId clinicId
                input updFail txFail _ input.quantity [] [] st.units st.transactions
                txs used l T heqloop
              simp only [List.map_nil, List.nil_append] at hused
              rw [candPairs_expiries] at hcand
              have hsorted : List.Sorted (fun a b => a ≤ b)
                  ((fefoCandidates st clinicId drugIds).map (fun u => u.expiry_date)) :=
                List.pairwise_map.mpr (fefoCandidates_sorted st clinicId drugIds)
              have ht1 : List.Sorted (fun a b => a ≤ b) t1 := by
                rw [hcand] at hsorted
                exact List.Pairwise.sublist (List.sublist_append_left t1 t2) hsorted
              rw [← hres]
              exact ⟨hsumeq, rfl, hused ▸ ht1⟩
            · simp at hrun

/-- C2: when the total available quantity across the FEFO candidates is less
than the requested quantity, the call fails with the insufficient-quantity
error reporting both figures, and the whole storage state is returned
unchanged: the check runs before any mutation. -/
theorem fefo_insufficient_rejected_before_mutation
    (input : FEFOCheckoutRequest) (userId clinicId : String)
    (updFail txFail : Nat → Option String) (st : DbState) (drugIds : List String)
    (hvalid : fefoInputInvalid input = false)
    (hq : 0 < input.quantity)
    (hres : resolveDrugIds st input = .ok drugIds)
    (hne : (fefoCandidates st clinicId drugIds).isEmpty = false)
    (hins : ((fefoCandidates st clinicId drugIds).map
      (fun u => u.available_quantity)).sum < input.quantity) :
    checkOutMedicationFEFO input userId clinicId updFail txFail st =
      (.error ("Insufficient quantity. Available: " ++
        toString ((fefoCandidates st clinicId drugIds).map
          (fun u => u.available_quantity)).sum ++
        ", Requested: " ++ toString input.quantity), st) := by
  rw [checkOutMedicationFEFO_eq]
  rw [if_neg (by simp [hvalid]), if_neg (by omega)]
  simp only [hres]
  rw [if_neg (by simp [hne]), if_pos hins]

/-- C3: when a FEFO walk fails on a transaction-insert step (surfacing the
allocation failure that names the underlying storage error), the compensation
described in the source re-reads and restores every decremented unit, and the
final units table equals the initial one exactly. -/
theorem fefo_txInsert_failure_compensates
    (input : FEFOCheckoutRequest) (userId clinicId : String)
    (updFail txFail : Nat → Option String) (st st' : DbState) (msg : String)
    (hnodup : (st.units.map (fun u => u.unit_id)).Nodup)
    (hrun : checkOutMedicationFEFO input userId clinicId updFail txFail st =
      (.error ("Failed to create transaction: " ++ msg), st')) :
    st'.units = st.units :=
  fefo_error_units_eq hnodup hrun

/-- Example drug used by the concrete FEFO scenarios. -/
def exDrugW : DbDrug :=
  { drug_id := "d1", medication_name := "Lisinopril", generic_name := "lisinopril",
    strength := 10, strength_unit := "mg", ndc_id := "111", form := "tab" }

/-- Example lot used by the concrete scenarios. -/
def exLotW : DbLot :=
  { lot_id := "lot1", source := "CityCare", note := none, location_id := "loc1",
    clinic_id := "c1", max_capacity := none }

/-- Example unit row builder for the concrete scenarios. -/
def mkUnitW (uid : String) (tot av : Int) (exp : Nat) : DbUnit :=
  { unit_id := uid, total_quantity := tot, available_quantity := av,
    expiry_date := exp, date_created := 0, lot_id := "lot1", drug_id := "d1",
    clinic_id := "c1", user_id := "w1", patient_reference_id := none,
    optional_notes := none, manufacturer_lot_number := none, qr_code := none }

/-- Spec section 8 FEFO ordering scenario: unit A expires first with 30
available, unit B later with 30 available (stored in the opposite order). -/
def exStW : DbState :=
  { units := [mkUnitW "uB" 30 30 200, mkUnitW "uA" 30 30 100],
    transactions := [], drugs := [exDrugW], lots := [exLotW], users := [] }

/-- FEFO request for 40 units of the example drug by NDC. -/
def exReqW : FEFOCheckoutRequest :=
  { ndcId := some "111", medicationName := none, strength := none,
    strengthUnit := none, quantity := 40, patientName := none,
    patientReferenceId := none, notes := none }

/-- The result the FEFO walk produces on the spec section 8 scenario. -/
def exResW : FEFOCheckoutResult :=
  { transactions :=
      [{ transaction_id := 0, type := .check_out, quantity := 30, unit_id := "uA",
         patient_name := none, patient_reference_id := none, user_id := "w1",
         notes := some ("FEFO checkout - Unit 1 of batch"), clinic_id := "c1" },
       { transaction_id := 1, type := .check_out, quantity := 10, unit_id := "uB",
         patient_name := none, patient_reference_id := none, user_id := "w1",
         notes := some ("FEFO checkout - Unit 2 of batch"), clinic_id := "c1" }]
    totalQuantityDispensed := 40
    unitsUsed :=
      [{ unitId := "uA", quantityTaken := 30, expiryDate := 100,
         medicationName := "Lisinopril" },
       { unitId := "uB", quantityTaken := 10, expiryDate := 200,
         medicationName := "Lisinopril" }] }

theorem fefo_success_conservation_witness :
    (exResW.unitsUsed.map (fun uu => uu.quantityTaken)).sum =
        exResW.totalQuantityDispensed ∧
      exResW.totalQuantityDispensed = exReqW.quantity ∧
      List.Sorted (fun a b => a ≤ b) (exResW.unitsUsed.map (fun uu => uu.expiryDate)) :=
  fefo_success_conservation exReqW "w1" "c1" (fun _ => none) (fun _ => none) exStW
    (checkOutMedicationFEFO exReqW "w1" "c1" (fun _ => none) (fun _ => none) exStW).2
    exResW (by decide)

/-- Spec section 8 insufficient-quantity scenario: one unit with 50 available. -/
def exStC2 : DbState :=
  { units := [mkUnitW "uA" 50 50 100],
    transactions := [], drugs := [exDrugW], lots := [exLotW], users := [] }

/-- FEFO request for 100 units against the 50 available. -/
def exReqC2 : FEFOCheckoutRequest :=
  { ndcId := some "111", medicationName := none, strength := none,
    strengthUnit := none, quantity := 100, patientName := none,
    patientReferenceId := none, notes := none }

theorem fefo_insufficient_witness :
    (0 : Int) < 100 ∧
      checkOutMedicationFEFO exReqC2 "w1" "c1" (fun _ => none) (fun _ => none) exStC2 =
        (.error ("Insufficient quantity. Available: 50, Requested: 100"), exStC2) :=
  ⟨by decide,
   fefo_insufficient_rejected_before_mutation exReqC2 "w1" "c1"
     (fun _ => none) (fun _ => none) exStC2 ["d1"]
     (by decide) (by decide) (by decide) (by decide) (by decide)⟩

/-- Failure schedule injecting a storage error into the second transaction
insert of a FEFO walk. -/
def txFailSecond : Nat → Option String :=
  fun i => if i = 1 then some ("db down") else none

theorem fefo_txInsert_failure_compensates_witness :
    ((checkOutMedicationFEFO exReqW "w1" "c1" (fun _ => none) txFailSecond exStW).2).units =
      exStW.units :=
  fefo_txInsert_failure_compensates exReqW "w1" "c1" (fun _ => none) txFailSecond
    exStW (checkOutMedicationFEFO exReqW "w1" "c1" (fun _ => none) txFailSecond exStW).2
    "db down" (by decide) (by decide)

/-- The unit row createUnit inserts when the caller supplies drugId directly. -/
def createdUnitOf (input : CreateUnitRequest) (userId clinicId newUnitId : String)
    (now : Nat) : DbUnit :=
  { unit_id := newUnitId, total_quantity := input.totalQuantity,
    available_quantity := input.availableQuantity, expiry_date := input.expiryDate,
    date_created := now, lot_id := input.lotId, drug_id := input.drugId.getD "",
    clinic_id := clinicId, user_id := userId, patient_reference_id := none,
    optional_notes := input.optionalNotes,
    manufacturer_lot_number := input.manufacturerLotNumber,
    qr_code := some newUnitId }

/-- The check-in transaction row createUnit inserts after a successful unit
insert (unitService.ts lines 108-117). -/
def checkInTxOf (input : CreateUnitRequest) (userId clinicId newUnitId : String)
    (st : DbState) : DbTransaction :=
  { transaction_id := st.transactions.length, type := .check_in,
    quantity := input.totalQuantity, unit_id := newUnitId, patient_name := none,
    patient_reference_id := none, user_id := userId,
    notes := some ("Initial check-in"), clinic_id := clinicId }

/-- C5: when the lot has a configured maximum and the current capacity plus the
new unit's total quantity exceeds it, createUnit fails with the capacity error
naming the current, attempted and available figures, and the state is returned
unchanged: no unit row and no transaction row is written. -/
theorem createUnit_capacity_exceeded
    (input : CreateUnitRequest) (userId clinicId newUnitId : String) (now : Nat)
    (unitInsertFail txInsertFail : Option String) (st : DbState) (lot : DbLot) (m : Int)
    (hdrug : optStrFalsy input.drugId = false)
    (hlot : getLotById input.lotId clinicId st = some lot)
    (hmax : lot.max_capacity = some m)
    (hover : m < getLotCurrentCapacity input.lotId st + input.totalQuantity) :
    createUnit input userId clinicId newUnitId now unitInsertFail txInsertFail st =
      (.error ("Cannot add unit: Would exceed lot capacity. Current: " ++
        toString (getLotCurrentCapacity input.lotId st) ++ "/" ++ toString m ++
        ", Attempting to add: " ++ toString input.totalQuantity ++
        ", Available: " ++ toString (m - getLotCurrentCapacity input.lotId st)), st) := by
  cases hdd : input.drugData with
  | none =>
    simp only [createUnit, hdd, hdrug, createUnitStage2, hlot, hmax]
    rw [if_neg (by simp), if_pos hover]
  | some dd =>
    simp only [createUnit, hdd, hdrug, createUnitStage2, hlot, hmax]
    rw [if_neg (by simp), if_pos hover]

/-- C6: once the unit insert has succeeded, exactly one check-in transaction
for the full total quantity is attempted; if its insert fails the unit is kept
and the call still succeeds with the created unit, and only the success case
appends the ledger row. -/
theorem createUnit_ledger_best_effort
    (input : CreateUnitRequest) (userId clinicId newUnitId : String) (now : Nat)
    (txInsertFail : Option String) (st : DbState) (lot : DbLot)
    (hdrug : optStrFalsy input.drugId = false)
    (hlot : getLotById input.lotId clinicId st = some lot)
    (hcap : ∀ m, lot.max_capacity = some m →
      getLotCurrentCapacity input.lotId st + input.totalQuantity ≤ m) :
    createUnit input userId clinicId newUnitId now none txInsertFail st =
      (.ok (createdUnitOf input userId clinicId newUnitId now),
       { st with
         units := st.units ++ [createdUnitOf input userId clinicId newUnitId now],
         transactions :=
           match txInsertFail with
           | some _ => st.transactions
           | none => st.transactions ++ [checkInTxOf input userId clinicId newUnitId st] }) := by
  cases hdd : input.drugData with
  | none =>
    simp only [createUnit, hdd, hdrug, createUnitStage2, hlot]
    have hcapnone :
        (match lot.max_capacity with
          | none => none
          | some maxC =>
            if getLotCurrentCapacity input.lotId st + input.totalQuantity > maxC then
              some ("Cannot add unit: Would exceed lot capacity. Current: " ++
                toString (getLotCurrentCapacity input.lotId st) ++ "/" ++ toString maxC ++
                ", Attempting to add: " ++ toString input.totalQuantity ++
                ", Available: " ++ toString (maxC - getLotCurrentCapacity input.lotId st))
            else none) = (none : Option String) := by
      cases hm : lot.max_capacity with
      | none => rfl
      | some m =>
        have hle := hcap m hm
        simp only [gt_iff_lt]
        rw [if_neg (by omega)]
    rw [hcapnone]
    cases txInsertFail with
    | none => rfl
    | some msg => rfl
  | some dd =>
    simp only [createUnit, hdd, hdrug, createUnitStage2, hlot]
    have hcapnone :
        (match lot.max_capacity with
          | none => none
          | some maxC =>
            if getLotCurrentCapacity input.lotId st + input.totalQuantity > maxC then
              some ("Cannot add unit: Would exceed lot capacity. Current: " ++
                toString (getLotCurrentCapacity input.lotId st) ++ "/" ++ toString maxC ++
                ", Attempting to add: " ++ toString input.totalQuantity ++
                ", Available: " ++ toString (maxC - getLotCurrentCapacity input.lotId st))
            else none) = (none : Option String) := by
      cases hm : lot.max_capacity with
      | none => rfl
      | some m =>
        have hle := hcap m hm
        simp only [gt_iff_lt]
        rw [if_neg (by omega)]
    rw [hcapnone]
    cases txInsertFail with
    | none => rfl
    | some msg => rfl

/-- Lot with a configured maximum capacity of 1000 (spec section 8 scenario). -/
def exLotC5 : DbLot :=
  { lot_id := "lot1", source := "CityCare", note := none, location_id := "loc1",
    clinic_id := "c1", max_capacity := some 1000 }

/-- State with one existing unit of total quantity 900 in the capped lot. -/
def exStC5 : DbState :=
  { units := [mkUnitW "u0" 900 900 100],
    transactions := [], drugs := [exDrugW], lots := [exLotC5], users := [] }

/-- Create request that would raise the lot total to 1100. -/
def exCreateC5 : CreateUnitRequest :=
  { totalQuantity := 200, availableQuantity := 200, lotId := "lot1",
    expiryDate := 300, drugId := some "d1", drugData := none,
    patientReferenceId := none, optionalNotes := none,
    manufacturerLotNumber := none }

theorem createUnit_capacity_exceeded_witness :
    createUnit exCreateC5 "w1" "c1" "u1" 5 none none exStC5 =
      (.error ("Cannot add unit: Would exceed lot capacity. Current: 900/1000, " ++
        "Attempting to add: 200, Available: 100"), exStC5) :=
  createUnit_capacity_exceeded exCreateC5 "w1" "c1" "u1" 5 none none exStC5
    exLotC5 1000 (by decide) (by decide) (by decide) (by decide)

/-- Create request for 20 more units, fitting under the capacity cap. -/
def exCreateC6 : CreateUnitRequest :=
  { totalQuantity := 20, availableQuantity := 20, lotId := "lot1",
    expiryDate := 300, drugId := some "d1", drugData := none,
    patientReferenceId := none, optionalNotes := none,
    manufacturerLotNumber := none }

theorem createUnit_ledger_best_effort_witness :
    createUnit exCreateC6 "w1" "c1" "u9" 5 none (some ("boom")) exStC5 =
      (.ok (createdUnitOf exCreateC6 "w1" "c1" "u9" 5),
       { exStC5 with
         units := exStC5.units ++ [createdUnitOf exCreateC6 "w1" "c1" "u9" 5],
         transactions := exStC5.transactions }) :=
  createUnit_ledger_best_effort exCreateC6 "w1" "c1" "u9" 5 (some ("boom")) exStC5
    exLotC5 (by decide) (by decide)
    (by
      intro m hm
      have h1000 : exLotC5.max_capacity = some (1000 : Int) := rfl
      rw [h1000] at hm
      injection hm with h
      subst h
      decide)

/-- The check-out transaction row checkOutUnit inserts
(transactionService.ts lines 291-302). -/
def checkOutTxOf (input : CheckOutRequest) (userId clinicId : String)
    (st : DbState) : DbTransaction :=
  { transaction_id := st.transactions.length, type := .check_out,
    quantity := input.quantity, unit_id := input.unitId,
    patient_name := input.patientName,
    patient_reference_id := input.patientReferenceId, user_id := userId,
    notes := input.notes, clinic_id := clinicId }

/-- C7: for a unit present in the tenant with enough available quantity and no
storage failure, checkOutUnit succeeds, decrements that unit's available
quantity by exactly the requested quantity (leaving every other unit's read
unchanged), and appends exactly one check-out transaction of that quantity
referencing that unit; if the transaction insert fails, the unit's available
quantity is restored to its pre-checkout value and the whole state equals the
initial state. -/
theorem checkOutUnit_spec
    (input : CheckOutRequest) (userId clinicId : String) (st : DbState) (u : DbUnit)
    (hnodup : (st.units.map (fun v => v.unit_id)).Nodup)
    (hfind : st.units.find? (unitRowMatches input.unitId clinicId) = some u)
    (hq : input.quantity ≤ u.available_quantity) :
    checkOutUnit input userId clinicId none none st =
      (.ok (checkOutTxOf input userId clinicId st),
       { st with
         units := updateQty st.units input.unitId clinicId
           (u.available_quantity - input.quantity),
         transactions := st.transactions ++ [checkOutTxOf input userId clinicId st] }) ∧
    readQty (updateQty st.units input.unitId clinicId
        (u.available_quantity - input.quantity)) input.unitId clinicId =
      some (u.available_quantity - input.quantity) ∧
    (∀ y c', y ≠ input.unitId →
      readQty (updateQty st.units input.unitId clinicId
        (u.available_quantity - input.quantity)) y c' = readQty st.units y c') ∧
    (∀ m, checkOutUnit input userId clinicId none (some m) st =
      (.error ("Failed to create transaction: " ++ m), st)) := by
  have hread : readQty st.units input.unitId clinicId = some u.available_quantity := by
    rw [readQty, hfind]
    rfl
  refine ⟨?_, ?_, ?_, ?_⟩
  · simp only [checkOutUnit, hfind]
    rw [if_neg (not_lt.mpr hq)]
    rfl
  · exact readQty_updateQty_self st.units input.unitId clinicId _ _ hread
  · intro y c' hy
    exact readQty_updateQty_ne st.units clinicId c' _ hy
  · intro m
    simp only [checkOutUnit, hfind]
    rw [if_neg (not_lt.mpr hq)]
    have hu : updateQty (updateQty st.units input.unitId clinicId
        (u.available_quantity - input.quantity)) input.unitId clinicId
        u.available_quantity = st.units := by
      rw [updateQty_updateQty_self]
      apply updateQty_noop
      intro r hr hm
      exact avail_eq_of_readQty hnodup hread hr (id_of_unitRowMatches hm)
        (clinic_of_unitRowMatches hm)
    rw [hu]

/-- State for the single-unit checkout scenario: one unit with 10 available. -/
def exStC7 : DbState :=
  { units := [mkUnitW "u1" 10 10 100],
    transactions := [], drugs := [exDrugW], lots := [exLotW], users := [] }

/-- Checkout request for 4 of the 10 available. -/
def exCOReq : CheckOutRequest :=
  { unitId := "u1", quantity := 4, patientName := none,
    patientReferenceId := none, notes := none }

theorem checkOutUnit_spec_witness :
    checkOutUnit exCOReq "w1" "c1" none none exStC7 =
      (.ok (checkOutTxOf exCOReq "w1" "c1" exStC7),
       { exStC7 with
         units := updateQty exStC7.units "u1" "c1" 6,
         transactions := exStC7.transactions ++ [checkOutTxOf exCOReq "w1" "c1" exStC7] }) ∧
    checkOutUnit exCOReq "w1" "c1" none (some ("boom")) exStC7 =
      (.error ("Failed to create transaction: boom"), exStC7) :=
  ⟨(checkOutUnit_spec exCOReq "w1" "c1" exStC7 (mkUnitW "u1" 10 10 100)
      (by decide) (by decide) (by decide)).1,
   (checkOutUnit_spec exCOReq "w1" "c1" exStC7 (mkUnitW "u1" 10 10 100)
      (by decide) (by decide) (by decide)).2.2.2 "boom"⟩

/-- C9: updateTransaction writes only the transactions table: the units table,
and in particular every unit's availableQuantity and totalQuantity, is exactly
the same after the call as before, whatever the quantity change was. -/
theorem updateTransaction_units_frame
    (transactionId : Nat) (upd : UpdateTransactionRequest) (clinicId : String)
    (st : DbState) :
    ((updateTransaction transactionId upd clinicId st).2).units = st.units := by
  unfold updateTransaction
  cases h : st.transactions.find? (txRowMatches transactionId clinicId) <;> rfl

/-- C10: with a truthy (non-empty) search string, getUnits reports total equal
to the number of returned page-scoped matches, hence at most pageSize, rather
than a tenant-wide matching count; with no search, total is the exact
tenant-wide unit count. -/
theorem getUnits_total_page_scoped
    (clinicId : String) (page pageSize : Nat) (s : String) (st : DbState)
    (hs : s.isEmpty = false) :
    ((getUnits clinicId page pageSize (some s) st).total =
        ((getUnits clinicId page pageSize (some s) st).units).length ∧
      (getUnits clinicId page pageSize (some s) st).total ≤ pageSize) ∧
    (getUnits clinicId page pageSize none st).total =
      (st.units.filter (fun u => u.clinic_id == clinicId)).length := by
  have hkey : ∀ (c : Prop) (inst : Decidable c) (l : List DbUnit) (p : DbUnit → Bool),
      (if c then (l.take pageSize).filter p else l.take pageSize).length ≤ pageSize := by
    intro c inst l p
    have h1 : (l.take pageSize).length ≤ pageSize := by
      rw [List.length_take]
      omega
    by_cases hc : c
    · rw [if_pos hc]
      exact le_trans (List.length_filter_le _ _) h1
    · rw [if_neg hc]
      exact h1
  refine ⟨⟨?_, ?_⟩, ?_⟩
  · simp only [getUnits, optStrFalsy, hs, Bool.not_false]
    rw [if_pos trivial]
  · simp only [getUnits, optStrFalsy, hs, Bool.not_false]
    rw [if_pos trivial]
    exact hkey _ _ _ _
  · rfl

/-- Search scenario: two matching units, page size 1, so the page-scoped total
is 1 while the tenant holds 2 matching units. -/
def exStC10 : DbState :=
  { units := [mkUnitW "u1" 10 10 100, mkUnitW "u2" 20 20 200],
    transactions := [], drugs := [exDrugW], lots := [exLotW], users := [] }

theorem getUnits_total_page_scoped_witness :
    ((getUnits "c1" 1 1 (some ("lisinopril")) exStC10).total =
        ((getUnits "c1" 1 1 (some ("lisinopril")) exStC10).units).length ∧
      (getUnits "c1" 1 1 (some ("lisinopril")) exStC10).total ≤ 1) ∧
    (getUnits "c1" 1 1 none exStC10).total =
      (exStC10.units.filter (fun u => u.clinic_id == "c1")).length :=
  getUnits_total_page_scoped "c1" 1 1 "lisinopril" exStC10 (by decide)

/-- Advanced filter giving both the EXPIRED window and an explicit range. -/
def advFiltBoth : AdvancedUnitFilters :=
  { expiryDateFrom := some 10, expiryDateTo := some 17, locationIds := none,
    minStrength := none, maxStrength := none, strengthUnit := none,
    expirationWindow := some .EXPIRED, medicationName := none,
    genericName := none, ndcId := none, sortBy := none, sortOrder := none }

/-- The same filter with only the explicit range. -/
def advFiltRange : AdvancedUnitFilters :=
  { expiryDateFrom := some 10, expiryDateTo := some 17, locationIds := none,
    minStrength := none, maxStrength := none, strengthUnit := none,
    expirationWindow := none, medicationName := none,
    genericName := none, ndcId := none, sortBy := none, sortOrder := none }

/-- State with one unit expiring three days after today (today = 10). -/
def exStC8 : DbState :=
  { units := [mkUnitW "u1" 10 10 13],
    transactions := [], drugs := [exDrugW], lots := [exLotW], users := [] }

/-- C8 (refuted): getUnitsAdvanced chains the expiration-window filter and the
explicit date-range filters onto the same query, so they conjoin; with the
EXPIRED window plus the range [today, today+7], the unit expiring in 3 days is
filtered out, while the explicit range alone returns it. The explicit range
does not take precedence. -/
theorem advWindow_conjoins_with_range :
    (getUnitsAdvanced 10 "c1" advFiltBoth 1 50 exStC8).units = [] ∧
    (getUnitsAdvanced 10 "c1" advFiltRange 1 50 exStC8).units =
      [mkUnitW "u1" 10 10 13] := by
  constructor
  · rfl
  · rfl

/-- State with a single invariant-satisfying unit for the invariant analysis. -/
def exStC4 : DbState :=
  { units := [mkUnitW "u1" 100 100 100],
    transactions := [], drugs := [exDrugW], lots := [exLotW], users := [] }

/-- Update raising availableQuantity to 200 while totalQuantity stays 100. -/
def exUpdC4 : UpdateUnitRequest :=
  { totalQuantity := none, availableQuantity := some 200, expiryDate := none,
    optionalNotes := none }

/-- C4 (refuted): updateUnit validates nothing, so a unit satisfying the
invariant before the call can violate 0 ≤ availableQuantity ≤ totalQuantity
after a call the operation accepts. -/
theorem updateUnit_breaks_invariant :
    unitInvariant (mkUnitW "u1" 100 100 100) ∧
    (updateUnit "u1" exUpdC4 "c1" exStC4).1 =
      .ok (applyUnitUpdate exUpdC4 (mkUnitW "u1" 100 100 100)) ∧
    applyUnitUpdate exUpdC4 (mkUnitW "u1" 100 100 100) ∈
      ((updateUnit "u1" exUpdC4 "c1" exStC4).2).units ∧
    ¬ unitInvariant (applyUnitUpdate exUpdC4 (mkUnitW "u1" 100 100 100)) :=
  ⟨by decide, by decide, by decide, by decide⟩

/-- The unit row createUnit inserts, parameterised by the resolved drug id. -/
def newUnitRecord (input : CreateUnitRequest) (userId clinicId newUnitId : String)
    (now : Nat) (d : String) : DbUnit :=
  { unit_id := newUnitId, total_quantity := input.totalQuantity,
    available_quantity := input.availableQuantity, expiry_date := input.expiryDate,
    date_created := now, lot_id := input.lotId, drug_id := d, clinic_id := clinicId,
    user_id := userId, patient_reference_id := none,
    optional_notes := input.optionalNotes,
    manufacturer_lot_number := input.manufacturerLotNumber,
    qr_code := some newUnitId }

theorem getOrCreateDrug_units (dd : DrugDataInput) (st : DbState) :
    ((getOrCreateDrug dd st).2).units = st.units := by
  unfold getOrCreateDrug
  cases h : st.drugs.find? (fun d => d.ndc_id == dd.ndcId) <;> rfl

theorem createUnitStage2_units_shape (input : CreateUnitRequest)
    (userId clinicId newUnitId : String) (now : Nat) (uf tf : Option String)
    (drugId0 : Option String) (st1 : DbState) :
    ((createUnitStage2 input userId clinicId newUnitId now uf tf drugId0 st1).2).units
        = st1.units ∨
    ∃ d, ((createUnitStage2 input userId clinicId newUnitId now uf tf drugId0
        st1).2).units =
      st1.units ++ [newUnitRecord input userId clinicId newUnitId now d] := by
  simp only [createUnitStage2]
  split
  · left
    rfl
  · split
    · left
      rfl
    · split
      · left
        rfl
      · cases uf with
        | some msg =>
          left
          rfl
        | none =>
          cases tf with
          | some msg =>
            right
            exact ⟨drugId0.getD "", rfl⟩
          | none =>
            right
            exact ⟨drugId0.getD "", rfl⟩

theorem createUnit_units_shape (input : CreateUnitRequest)
    (userId clinicId newUnitId : String) (now : Nat) (uf tf : Option String)
    (st : DbState) :
    ((createUnit input userId clinicId newUnitId now uf tf st).2).units = st.units ∨
    ∃ d, ((createUnit input userId clinicId newUnitId now uf tf st).2).units =
      st.units ++ [newUnitRecord input userId clinicId newUnitId now d] := by
  unfold createUnit
  cases hdd : input.drugData with
  | none =>
    simp only []
    exact createUnitStage2_units_shape input userId clinicId newUnitId now uf tf
      input.drugId st
  | some dd =>
    cases hdg : optStrFalsy input.drugId with
    | false =>
      simp only []
      exact createUnitStage2_units_shape input userId clinicId newUnitId now uf tf
        input.drugId st
    | true =>
      simp only []
      rcases createUnitStage2_units_shape input userId clinicId newUnitId now uf tf
          (some (getOrCreateDrug dd st).1) ((getOrCreateDrug dd st).2) with h | ⟨d, h⟩
      · left
        rw [h, getOrCreateDrug_units]
      · right
        refine ⟨d, ?_⟩
        rw [h, getOrCreateDrug_units]

/-- Every successful FEFO call preserves the unit invariant on every row. -/
theorem fefo_ok_units_invariant {input : FEFOCheckoutRequest}
    {userId clinicId : String} {updFail txFail : Nat → Option String}
    {st : DbState} {res : FEFOCheckoutResult} {st' : DbState}
    (hnodup : (st.units.map (fun u => u.unit_id)).Nodup)
    (hinv : ∀ r ∈ st.units, unitInvariant r)
    (hrun : checkOutMedicationFEFO input userId clinicId updFail txFail st =
      (.ok res, st')) :
    ∀ r ∈ st'.units, unitInvariant r := by
  rw [checkOutMedicationFEFO_eq] at hrun
  split at hrun
  · simp at hrun
  · split at hrun
    · simp at hrun
    · split at hrun
      · simp at hrun
      · rename_i drugIds heqres
        split at hrun
        · simp at hrun
        · split at hrun
          · simp at hrun
          · split at hrun
            · rename_i txs used l T heqloop
              simp only [Prod.mk.injEq, Except.ok.injEq] at hrun
              rw [← hrun.2]
              show ∀ r ∈ l, unitInvariant r
              refine fefoLoop_ok_invariant userId clinicId input updFail txFail
                _ input.quantity [] [] st.units st.transactions txs used l T
                hnodup ?_ ?_ ?_ hinv heqloop
              · simp only [List.map_nil, List.nil_append, List.map_map]
                exact fefoCandidates_ids_nodup hnodup
              · intro p hp
                obtain ⟨u, hu, hup⟩ := List.mem_map.mp hp
                rw [← hup]
                exact fefoCandidates_snapshot hnodup u hu
              · intro p hp
                obtain ⟨u, hu, hup⟩ := List.mem_map.mp hp
                rw [← hup]
                exact (mem_fefoCandidates hu).2.2
            · simp at hrun

/-- C4 (amended): the checkout paths preserve 0 ≤ availableQuantity ≤
totalQuantity, but createUnit and updateUnit do so only when the supplied
quantities themselves respect the bounds, and checkOutUnit additionally needs a
non-negative requested quantity: (1) createUnit preserves the invariant
whenever the request has 0 ≤ availableQuantity ≤ totalQuantity; (2) updateUnit
preserves it whenever applying the update to any matching unit yields an
invariant-satisfying row; (3) checkOutUnit preserves it for every quantity
≥ 0, on success and on every error; (4) checkOutMedicationFEFO always
preserves it, on success and on every error. -/
theorem coreOps_unit_invariant_amended :
    (∀ (input : CreateUnitRequest) (userId clinicId newUnitId : String) (now : Nat)
      (uf tf : Option String) (st : DbState),
      0 ≤ input.availableQuantity → input.availableQuantity ≤ input.totalQuantity →
      (∀ r ∈ st.units, unitInvariant r) →
      ∀ r ∈ ((createUnit input userId clinicId newUnitId now uf tf st).2).units,
        unitInvariant r) ∧
    (∀ (unitId : String) (upd : UpdateUnitRequest) (clinicId : String) (st : DbState),
      (∀ r ∈ st.units, unitInvariant r) →
      (∀ r ∈ st.units, unitRowMatches unitId clinicId r = true →
        unitInvariant (applyUnitUpdate upd r)) →
      ∀ r ∈ ((updateUnit unitId upd clinicId st).2).units, unitInvariant r) ∧
    (∀ (input : CheckOutRequest) (userId clinicId : String)
      (updFail txFail : Option String) (st : DbState),
      (st.units.map (fun v => v.unit_id)).Nodup →
      0 ≤ input.quantity →
      (∀ r ∈ st.units, unitInvariant r) →
      ∀ r ∈ ((checkOutUnit input userId clinicId updFail txFail st).2).units,
        unitInvariant r) ∧
    (∀ (input : FEFOCheckoutRequest) (userId clinicId : String)
      (updFail txFail : Nat → Option String) (st : DbState),
      (st.units.map (fun v => v.unit_id)).Nodup →
      (∀ r ∈ st.units, unitInvariant r) →
      ∀ r ∈ ((checkOutMedicationFEFO input userId clinicId updFail txFail st).2).units,
        unitInvariant r) := by
  refine ⟨?_, ?_, ?_, ?_⟩
  · intro input userId clinicId newUnitId now uf tf st h0 h1 hinv r hr
    rcases createUnit_units_shape input userId clinicId newUnitId now uf tf st
      with h | ⟨d, h⟩
    · rw [h] at hr
      exact hinv r hr
    · rw [h] at hr
      rcases List.mem_append.mp hr with h2 | h2
      · exact hinv r h2
      · rw [List.mem_singleton.mp h2]
        exact ⟨h0, h1⟩
  · intro unitId upd clinicId st hinv hupd r hr
    unfold updateUnit at hr
    cases hfind : st.units.find? (unitRowMatches unitId clinicId) with
    | none =>
      simp only [hfind] at hr
      exact hinv r hr
    | some u0 =>
      simp only [hfind] at hr
      obtain ⟨r₀, hr₀, hfr⟩ := List.mem_map.mp hr
      by_cases hm : unitRowMatches unitId clinicId r₀
      · rw [if_pos hm] at hfr
        rw [← hfr]
        exact hupd r₀ hr₀ hm
      · simp only [Bool.not_eq_true] at hm
        simp only [hm, Bool.false_eq_true, if_false] at hfr
        rw [← hfr]
        exact hinv r₀ hr₀
  · intro input userId clinicId updFail txFail st hnodup hq hinv r hr
    unfold checkOutUnit at hr
    cases hfind : st.units.find? (unitRowMatches input.unitId clinicId) with
    | none =>
      simp only [hfind] at hr
      exact hinv r hr
    | some u =>
      simp only [hfind] at hr
      have hread : readQty st.units input.unitId clinicId =
          some u.available_quantity := by
        rw [readQty, hfind]
        rfl
      by_cases hlt : u.available_quantity < input.quantity
      · rw [if_pos hlt] at hr
        exact hinv r hr
      · rw [if_neg hlt] at hr
        cases updFail with
        | some msg =>
          simp only [] at hr
          exact hinv r hr
        | none =>
          simp only [] at hr
          cases txFail with
          | some msg =>
            simp only [] at hr
            have hu : updateQty (updateQty st.units input.unitId clinicId
                (u.available_quantity - input.quantity)) input.unitId clinicId
                u.available_quantity = st.units := by
              rw [updateQty_updateQty_self]
              apply updateQty_noop
              intro r2 hr2 hm2
              exact avail_eq_of_readQty hnodup hread hr2 (id_of_unitRowMatches hm2)
                (clinic_of_unitRowMatches hm2)
            rw [hu] at hr
            exact hinv r hr
          | none =>
            simp only [] at hr
            refine updateQty_invariant hinv ?_ r hr
            intro r2 hr2 hm2
            have havail : r2.available_quantity = u.available_quantity :=
              avail_eq_of_readQty hnodup hread hr2 (id_of_unitRowMatches hm2)
                (clinic_of_unitRowMatches hm2)
            have htot := (hinv r2 hr2).2
            constructor
            · omega
            · omega
  · intro input userId clinicId updFail txFail st hnodup hinv r hr
    rcases hrun : checkOutMedicationFEFO input userId clinicId updFail txFail st
      with ⟨resx, st2⟩
    rw [hrun] at hr
    cases resx with
    | error e =>
      rw [fefo_error_units_eq hnodup hrun] at hr
      exact hinv r hr
    | ok res =>
      exact fefo_ok_units_invariant hnodup hinv hrun r hr

theorem coreOps_unit_invariant_amended_witness :
    ((0 : Int) ≤ 20 ∧ (0 : Int) ≤ 4 ∧ unitInvariant (mkUnitW "u1" 10 10 100)) ∧
    (∀ r ∈ ((createUnit exCreateC6 "w1" "c1" "u9" 5 none none exStC5).2).units,
      unitInvariant r) ∧
    (∀ r ∈ ((checkOutUnit exCOReq "w1" "c1" none none exStC7).2).units,
      unitInvariant r) ∧
    (∀ r ∈ ((checkOutMedicationFEFO exReqW "w1" "c1" (fun _ => none) (fun _ => none)
        exStW).2).units, unitInvariant r) :=
  ⟨⟨by decide, by decide, by decide⟩,
   coreOps_unit_invariant_amended.1 exCreateC6 "w1" "c1" "u9" 5 none none exStC5
     (by decide) (by decide) (by decide),
   coreOps_unit_invariant_amended.2.2.1 exCOReq "w1" "c1" none none exStC7
     (by decide) (by decide) (by decide),
   coreOps_unit_invariant_amended.2.2.2 exReqW "w1" "c1" (fun _ => none)
     (fun _ => none) exStW (by decide) (by decide)⟩

end DaanaRx
